/-
Verification of the sentinel-webhook monitoring pipeline.

This file gives a shallow embedding, in Lean 4, of the pure core of the
TypeScript sources of the repository (src/diff.ts, src/json_diff.ts,
src/retry.ts, src/domain_policy.ts, src/url_safety.ts, src/state.ts,
src/payload_limit.ts, src/webhook.ts, src/main.ts and the JSON-pointer
removal helper of src/normalize.ts), and proves the documented behavioural
properties of those functions.

Modelling conventions, used throughout:
  * JavaScript strings are modelled as Lean `String`; `s.length` of
    JavaScript (UTF-16 units) is modelled by the code-point count
    `String.length`.  The two agree on all strings without characters
    beyond the basic multilingual plane.
  * JavaScript numbers are modelled as `ℚ` (for values) or `Int`/`Nat`
    (for counters and sizes that the code keeps integral).  Where
    `Number.isFinite` matters, the exact IEEE-754 double overflow
    threshold `2^1024 - 2^970` is used on the exact rational value.
  * Asynchronous functions become pure functions over an explicit
    environment describing the outcome of each external effect
    (fetch results, webhook responses, DNS answers, clocks).
  * Fallible code returns `Except`/`Option`.
-/
import Mathlib

namespace Sentinel

/-! ## Basic string helpers (JavaScript semantics) -/

/-- JavaScript `String.prototype.startsWith`, via code-point lists. -/
def jsStartsWith (s pre : String) : Bool :=
  pre.data.isPrefixOf s.data

/-- JavaScript `String.prototype.endsWith`, via code-point lists. -/
def jsEndsWith (s suf : String) : Bool :=
  suf.data.isSuffixOf s.data

/-- ASCII lower-casing of one character (hostnames and header names of the
sources only ever lower-case ASCII; full Unicode case mapping is not
modelled). -/
def lowerChar (c : Char) : Char :=
  if 'A' ≤ c ∧ c ≤ 'Z' then Char.ofNat (c.toNat + 32) else c

/-- JavaScript `String.prototype.toLowerCase`, ASCII fragment. -/
def jsToLowerCase (s : String) : String :=
  ⟨s.data.map lowerChar⟩

/-- JavaScript `hostname.replace(/\.$/, '')`: drop one trailing dot. -/
def stripTrailingDot (s : String) : String :=
  if jsEndsWith s "." then ⟨s.data.dropLast⟩ else s

/-! ## diff.ts -/

/-- The fields of `Snapshot` (src/types.ts) that the diff engine and the
pipeline state machine read.  The remaining fields (URLs, fetch metrics,
validators) do not influence any verified property and are omitted. -/
structure Snapshot where
  text : String
  contentHash : String
  fetchedAt : String
deriving Repr, DecidableEq

/-- `m[0]` of a successful JavaScript match of the regex `-?\d+(?:\.\d+)?`:
the sign flag, integer digits and fractional digits of the leftmost
number in the character list.  The regex is leftmost-greedy: a match
starts at the first position holding a digit, or a `-` immediately
followed by a digit; `\d+` then consumes greedily and `(?:\.\d+)?`
consumes a dot only when at least one digit follows it. -/
def matchNumberToken : List Char → Option (Bool × List Char × List Char)
  | [] => none
  | c :: rest =>
    if c.isDigit then
      let ip := (c :: rest).takeWhile Char.isDigit
      let tail := (c :: rest).dropWhile Char.isDigit
      let fp := match tail with
        | '.' :: r2 => r2.takeWhile Char.isDigit
        | _ => []
      some (false, ip, fp)
    else if c = '-' then
      match rest with
      | d :: _ =>
        if d.isDigit then
          let ip := rest.takeWhile Char.isDigit
          let tail := rest.dropWhile Char.isDigit
          let fp := match tail with
            | '.' :: r2 => r2.takeWhile Char.isDigit
            | _ => []
          some (true, ip, fp)
        else matchNumberToken rest
      | [] => none
    else matchNumberToken rest

/-- Value of a digit list, most significant first. -/
def digitsToNat (ds : List Char) : Nat :=
  ds.foldl (fun a c => a * 10 + (c.toNat - 48)) 0

/-- Exact rational value of a matched decimal token. -/
def decimalValue (sign : Bool) (ip fp : List Char) : ℚ :=
  let m : ℚ := (digitsToNat ip : ℚ) + (digitsToNat fp : ℚ) / (10 : ℚ) ^ fp.length
  if sign then -m else m

/-- IEEE-754 double overflow threshold: `Number(s)` is finite exactly when
the exact decimal value is strictly below `2^1024 - 2^970` in absolute
value. -/
def doubleOverflowThreshold : ℚ := 2 ^ 1024 - 2 ^ 970

/-- `extractFirstNumber` of src/diff.ts: first `-?\d+(?:\.\d+)?` match
of the text, as an exact rational, `none` when there is no match or the
parsed value is not finite. -/
def extractFirstNumber (text : String) : Option ℚ :=
  match matchNumberToken text.data with
  | none => none
  | some (sg, ip, fp) =>
    let q := decimalValue sg ip fp
    if |q| < doubleOverflowThreshold then some q else none

/-- Result record of `computeTextChange` (src/diff.ts). -/
structure TextChangeResult where
  old : String
  new : String
  delta : Option ℚ
deriving Repr, DecidableEq

/-- `computeTextChange` of src/diff.ts. -/
def computeTextChange (previous current : Snapshot) : Option TextChangeResult :=
  if previous.contentHash = current.contentHash then none
  else
    some
      { old := previous.text
        new := current.text
        delta :=
          if previous.text.length ≤ 64 ∧ current.text.length ≤ 64 then
            match extractFirstNumber previous.text, extractFirstNumber current.text with
            | some prevNum, some currNum => some (currNum - prevNum)
            | _, _ => none
          else none }

/-! ### C6: behaviour of `computeTextChange` -/

/-- **C6.** For all snapshots `(previous, current)`: `computeTextChange`
returns `none` when their content hashes are equal; otherwise it returns
`{old := previous.text, new := current.text}` where the `delta` field is
present exactly when both texts are at most 64 characters long and both
contain a parseable first number, in which case `delta` is the current
number minus the previous number. -/
theorem computeTextChange_correct (previous current : Snapshot) :
    (previous.contentHash = current.contentHash →
      computeTextChange previous current = none) ∧
    (previous.contentHash ≠ current.contentHash →
      ∃ c, computeTextChange previous current = some c ∧
        c.old = previous.text ∧ c.new = current.text ∧
        (∀ d : ℚ, c.delta = some d ↔
          (previous.text.length ≤ 64 ∧ current.text.length ≤ 64 ∧
            ∃ p q, extractFirstNumber previous.text = some p ∧
              extractFirstNumber current.text = some q ∧ d = q - p))) := by
  constructor
  · intro h
    simp [computeTextChange, h]
  · intro h
    rw [computeTextChange, if_neg h]
    refine ⟨_, rfl, rfl, rfl, ?_⟩
    intro d
    by_cases hl : previous.text.length ≤ 64 ∧ current.text.length ≤ 64
    · rw [if_pos hl]
      rcases hp : extractFirstNumber previous.text with _ | p <;>
        rcases hq : extractFirstNumber current.text with _ | q <;>
        simp [hp, hq, hl, eq_comm]
    · rw [if_neg hl]
      simp only [reduceCtorEq, false_iff]
      exact fun hc => hl ⟨hc.1, hc.2.1⟩

/-- Witness for C6 at concrete snapshots: equal hashes give `none`;
distinct hashes on the texts `"49.99"` and `"45.00"` give a change whose
delta is `-4.99`. -/
theorem computeTextChange_correct_witness :
    computeTextChange ⟨"49.99", "h", "t"⟩ ⟨"45.00", "h", "t"⟩ = none ∧
    (∃ c, computeTextChange ⟨"49.99", "h1", "t1"⟩ ⟨"45.00", "h2", "t2"⟩ = some c ∧
      c.old = "49.99" ∧ c.new = "45.00" ∧
      (∀ d : ℚ, c.delta = some d ↔
        (("49.99" : String).length ≤ 64 ∧ ("45.00" : String).length ≤ 64 ∧
          ∃ p q, extractFirstNumber "49.99" = some p ∧
            extractFirstNumber "45.00" = some q ∧ d = q - p))) :=
  ⟨(computeTextChange_correct ⟨"49.99", "h", "t"⟩ ⟨"45.00", "h", "t"⟩).1 rfl,
    (computeTextChange_correct ⟨"49.99", "h1", "t1"⟩ ⟨"45.00", "h2", "t2"⟩).2 (by decide)⟩

/-! ## retry.ts -/

/-- The caller-chosen knobs of `withRetries` (src/retry.ts).  `shouldRetry`
and `onError` are not part of the record: the verdict of `shouldRetry` on
each thrown error is part of the attempt outcome below, and `onError` has
no observable effect. -/
structure RetryOpts where
  maxRetries : Nat
  baseBackoffMs : Nat
  maxTotalTimeMs : Option Int
deriving Repr, DecidableEq

/-- Outcome of running `fn(attempt)` once: success, or a thrown error
(identified by a numeric tag) together with the attempt's wall-clock
duration and the verdict of `shouldRetry` on the error. -/
inductive AttemptOutcome where
  | success (durMs : Nat)
  | failure (err : Nat) (durMs : Nat) (retryable : Bool)
deriving Repr, DecidableEq

/-- Result of `withRetries`: normal return, a re-raised caught error, or
the synthetic budget-exceeded error of the pre-attempt check. -/
inductive RetryResult where
  | ok
  | raised (err : Nat)
  | budgetError
deriving Repr, DecidableEq

/-- `computeDelayMs` of src/retry.ts with the sampled jitter made an
explicit argument (`jitter = Math.floor(Math.random() * (min(250, base) + 1))`,
so `0 ≤ jitter ≤ min 250 base`). -/
def computeDelayMs (base attempt jitter : Nat) : Nat :=
  base * 2 ^ attempt + jitter

/-- The pre-attempt budget check of `withRetries`: true when a
non-negative budget is configured and the elapsed time exceeds it. -/
def preRaise (opts : RetryOpts) (elapsed : Nat) : Bool :=
  match opts.maxTotalTimeMs with
  | some b => decide (0 ≤ b) && decide ((elapsed : Int) > b)
  | none => false

/-- The post-failure budget check of `withRetries`: true when a
non-negative budget is configured and `remaining <= 0 || delay > remaining`
for `remaining = budget - elapsed`. -/
def budgetCutoff (opts : RetryOpts) (elapsedNow delay : Nat) : Bool :=
  match opts.maxTotalTimeMs with
  | some b =>
    decide (0 ≤ b) && (decide (b - (elapsedNow : Int) ≤ 0) || decide ((delay : Int) > b - (elapsedNow : Int)))
  | none => false

/-- The `while (true)` loop of `withRetries` (src/retry.ts), with the
loop state (`attempt`, elapsed milliseconds, last caught error) explicit.
`attempts` gives the outcome of each `fn(attempt)` call and `jitterAt`
the jitter sampled before each sleep; sleeping `delay` ms advances the
clock by exactly `delay`. -/
def retryLoop (opts : RetryOpts) (attempts : Nat → AttemptOutcome) (jitterAt : Nat → Nat)
    (attempt elapsed : Nat) (lastErr : Option Nat) : RetryResult :=
  if preRaise opts elapsed then
    match lastErr with
    | some e => .raised e
    | none => .budgetError
  else
    match attempts attempt with
    | .success _ => .ok
    | .failure e dur retryable =>
      if hstop : opts.maxRetries ≤ attempt ∨ retryable = false then .raised e
      else
        let delay := computeDelayMs opts.baseBackoffMs attempt (jitterAt attempt)
        if budgetCutoff opts (elapsed + dur) delay then .raised e
        else retryLoop opts attempts jitterAt (attempt + 1) (elapsed + dur + delay) (some e)
termination_by opts.maxRetries - attempt
decreasing_by
  simp only [not_or] at hstop
  omega

/-- `withRetries` of src/retry.ts: run the loop from attempt 0 at time 0. -/
def withRetries (opts : RetryOpts) (attempts : Nat → AttemptOutcome)
    (jitterAt : Nat → Nat) : RetryResult :=
  retryLoop opts attempts jitterAt 0 0 none

/-! ### C8: the time-budget cut-off after a failed attempt -/

/-- **C8 (amended).** After a failed attempt that would otherwise be
retried (`attempt < maxRetries`, error retryable), when a non-negative
total-time budget is set and the remaining budget is non-positive or
*strictly* less than the computed backoff delay, the loop re-raises the
error of that attempt instead of sleeping and attempting again.  (The
claim's `remaining ≤ delay` is off by one: at `remaining = delay > 0` the
code sleeps and retries, see the counterexample.) -/
theorem retryLoop_budget_reraise (opts : RetryOpts) (attempts : Nat → AttemptOutcome)
    (jitterAt : Nat → Nat) (attempt elapsed : Nat) (lastErr : Option Nat)
    (e dur : Nat) (b : Int)
    (hpre : preRaise opts elapsed = false)
    (hfail : attempts attempt = .failure e dur true)
    (hlt : attempt < opts.maxRetries)
    (hb : opts.maxTotalTimeMs = some b) (hb0 : 0 ≤ b)
    (hrem : b - ((elapsed + dur : Nat) : Int) ≤ 0 ∨
      b - ((elapsed + dur : Nat) : Int) <
        (computeDelayMs opts.baseBackoffMs attempt (jitterAt attempt) : Int)) :
    retryLoop opts attempts jitterAt attempt elapsed lastErr = .raised e := by
  rw [retryLoop.eq_def]
  rw [hpre]
  simp only [Bool.false_eq_true, if_false, hfail]
  rw [dif_neg (by simp; omega)]
  have hcut : budgetCutoff opts (elapsed + dur)
      (computeDelayMs opts.baseBackoffMs attempt (jitterAt attempt)) = true := by
    rw [budgetCutoff, hb]
    simp only [Bool.and_eq_true, Bool.or_eq_true, decide_eq_true_eq]
    exact ⟨hb0, by omega⟩
  simp only [hcut, if_true]

/-- Witness for the amended C8: budget 100 ms, first attempt fails after
50 ms, delay is 100 ms, remaining 50 < 100, so the error (tag 7) is
re-raised. -/
theorem retryLoop_budget_reraise_witness :
    retryLoop ⟨1, 100, some 100⟩ (fun n => if n = 0 then .failure 7 50 true else .success 0)
      (fun _ => 0) 0 0 none = .raised 7 :=
  retryLoop_budget_reraise ⟨1, 100, some 100⟩
    (fun n => if n = 0 then .failure 7 50 true else .success 0) (fun _ => 0)
    0 0 none 7 50 100 (by decide) (by decide) (by decide) rfl (by decide)
    (Or.inr (by decide))

/-- Counterexample to C8 as stated: budget 150 ms, the first attempt
fails after 50 ms with a retryable error, `attempt 0 < maxRetries 1`, and
the remaining budget `150 - 50 = 100` equals the computed delay
`100 * 2^0 + 0 = 100` — so the claimed condition `remaining ≤ delay`
holds — yet the loop sleeps and makes a second (successful) attempt
instead of re-raising the error. -/
theorem retry_budget_claim_counterexample :
    (150 - (0 + 50 : Nat) : Int) ≤ (computeDelayMs 100 0 0 : Int) ∧
    (fun n => if n = 0 then AttemptOutcome.failure 7 50 true else .success 0) 0 =
      .failure 7 50 true ∧
    withRetries ⟨1, 100, some 150⟩
      (fun n => if n = 0 then .failure 7 50 true else .success 0) (fun _ => 0) = .ok := by
  refine ⟨by decide, rfl, ?_⟩
  rw [withRetries, retryLoop.eq_def]
  simp only [preRaise, budgetCutoff, computeDelayMs]
  norm_num
  rw [retryLoop.eq_def]
  simp [preRaise]

/-! ## domain_policy.ts -/

/-- JavaScript `s.slice(n)` for a non-negative start index. -/
def strDrop (s : String) (n : Nat) : String :=
  ⟨s.data.drop n⟩

/-- JavaScript whitespace for `String.prototype.trim` (ASCII fragment;
the sources only ever trim configuration strings). -/
def jsWhitespace (c : Char) : Bool :=
  c = ' ' || c = '\t' || c = '\n' || c = '\r' || c = '\x0b' || c = '\x0c'

/-- JavaScript `String.prototype.trim`. -/
def jsTrim (s : String) : String :=
  ⟨((s.data.dropWhile jsWhitespace).reverse.dropWhile jsWhitespace).reverse⟩

theorem isSuffixOf_iff_suffix (l m : List Char) : l.isSuffixOf m = true ↔ l <:+ m := by
  simp

theorem jsEndsWith_iff_exists (s t : String) :
    jsEndsWith s t = true ↔ ∃ pre : String, s = pre ++ t := by
  rw [jsEndsWith, isSuffixOf_iff_suffix]
  constructor
  · rintro ⟨u, hu⟩
    exact ⟨⟨u⟩, String.ext (by simpa using hu.symm)⟩
  · rintro ⟨pre, rfl⟩
    exact ⟨pre.data, by simp⟩

theorem append_dot_append_ne (pre d : String) : pre ++ "." ++ d ≠ d := by
  intro h
  have hlen := congrArg (fun s : String => s.data.length) h
  simp only [String.data_append, List.length_append, List.length_cons,
    List.length_nil] at hlen
  omega

theorem jsStartsWith_append_self (p s : String) :
    jsStartsWith (p ++ s) p = true := by
  simp [jsStartsWith]

/-- `normalizeHostname` of src/domain_policy.ts. -/
def normalizeHostname (hostname : String) : String :=
  jsToLowerCase (stripTrailingDot hostname)

/-- `normalizePattern` of src/domain_policy.ts. -/
def normalizePattern (pattern : String) : String :=
  let trimmed := jsToLowerCase (jsTrim pattern)
  if jsStartsWith trimmed "*." then "*." ++ stripTrailingDot (strDrop trimmed 2)
  else if jsStartsWith trimmed "." then "." ++ stripTrailingDot (strDrop trimmed 1)
  else stripTrailingDot trimmed

/-- `matchesPattern` of src/domain_policy.ts. -/
def matchesPattern (pattern hostname : String) : Bool :=
  let host := normalizeHostname hostname
  let pat := normalizePattern pattern
  if pat = "" then false
  else if jsStartsWith pat "*." then
    let suffix := strDrop pat 2
    if suffix = "" then false else (host != suffix) && jsEndsWith host ("." ++ suffix)
  else if jsStartsWith pat "." then
    let suffix := strDrop pat 1
    if suffix = "" then false else (host != suffix) && jsEndsWith host ("." ++ suffix)
  else host == pat

/-- `matchesAny` of src/domain_policy.ts: the first matching pattern. -/
def matchesAny (patterns : List String) (hostname : String) : Option String :=
  patterns.find? (fun p => matchesPattern p hostname)

/-- The distinct failure modes of `assertUrlAllowedByDomainPolicy`
(src/domain_policy.ts builds a `DomainPolicyError` message for each). -/
inductive DomainPolicyError where
  | invalidUrl
  | missingHostname
  | blockedByDenylist (pattern : String)
  | notInAllowlist (hostname : String)
deriving Repr, DecidableEq

/-- `assertUrlAllowedByDomainPolicy` of src/domain_policy.ts, over the
already-parsed URL (`none` models a `new URL(rawUrl)` failure; the model
keeps the parsed `hostname` only, which is all the function reads). -/
def assertUrlAllowedByDomainPolicy (url : Option String)
    (allowlist denylist : List String) : Except DomainPolicyError Unit :=
  match url with
  | none => .error .invalidUrl
  | some host =>
    if host = "" then .error .missingHostname
    else
      match matchesAny denylist host with
      | some p => .error (.blockedByDenylist p)
      | none =>
        if allowlist.length > 0 then
          match matchesAny allowlist host with
          | some _ => .ok ()
          | none => .error (.notInAllowlist (normalizeHostname host))
        else .ok ()

theorem matchesPattern_star_iff (d h : String) (hd : d ≠ "")
    (hnorm : normalizePattern ("*." ++ d) = "*." ++ d) :
    (matchesPattern ("*." ++ d) h = true ↔
      ∃ pre, normalizeHostname h = pre ++ "." ++ d) := by
  rw [matchesPattern]
  simp only [hnorm]
  have hne : ("*." ++ d : String) ≠ "" := by
    simp [String.ext_iff]
  rw [if_neg hne, if_pos (jsStartsWith_append_self "*." d)]
  have hdrop : strDrop ("*." ++ d) 2 = d := by
    apply String.ext
    simp [strDrop]
  rw [hdrop, if_neg hd]
  constructor
  · intro hm
    have h2 := (Bool.and_eq_true _ _).mp hm |>.2
    obtain ⟨pre, hpre⟩ := (jsEndsWith_iff_exists _ _).mp h2
    exact ⟨pre, by rw [hpre, String.append_assoc]⟩
  · rintro ⟨pre, hpre⟩
    apply (Bool.and_eq_true _ _).mpr
    constructor
    · apply bne_iff_ne.mpr
      rw [hpre]
      exact append_dot_append_ne pre d
    · exact (jsEndsWith_iff_exists _ _).mpr ⟨pre, by rw [hpre, String.append_assoc]⟩

theorem matchesPattern_dot_iff (d h : String) (hd : d ≠ "")
    (hnorm : normalizePattern ("." ++ d) = "." ++ d) :
    (matchesPattern ("." ++ d) h = true ↔
      ∃ pre, normalizeHostname h = pre ++ "." ++ d) := by
  rw [matchesPattern]
  simp only [hnorm]
  have hne : ("." ++ d : String) ≠ "" := by
    simp [String.ext_iff]
  have hnostar : jsStartsWith ("." ++ d) "*." = false := by
    simp [jsStartsWith, List.isPrefixOf]
  rw [if_neg hne, hnostar]
  simp only [Bool.false_eq_true, if_false]
  rw [if_pos (jsStartsWith_append_self "." d)]
  have hdrop : strDrop ("." ++ d) 1 = d := by
    apply String.ext
    simp [strDrop]
  rw [hdrop, if_neg hd]
  constructor
  · intro hm
    have h2 := (Bool.and_eq_true _ _).mp hm |>.2
    obtain ⟨pre, hpre⟩ := (jsEndsWith_iff_exists _ _).mp h2
    exact ⟨pre, by rw [hpre, String.append_assoc]⟩
  · rintro ⟨pre, hpre⟩
    apply (Bool.and_eq_true _ _).mpr
    constructor
    · apply bne_iff_ne.mpr
      rw [hpre]
      exact append_dot_append_ne pre d
    · exact (jsEndsWith_iff_exists _ _).mpr ⟨pre, by rw [hpre, String.append_assoc]⟩

/-! ### C9: wildcard patterns and denylist precedence -/

/-- **C9.** A suffix-wildcard pattern `*.d` and the leading-dot pattern
`.d` (for a normal-form, nonempty domain `d`) match a hostname exactly
when its normal form is a strict subdomain `pre ++ "." ++ d`; in
particular the bare host `d` itself never matches.  And
`assertUrlAllowedByDomainPolicy` rejects any URL whose host matches a
denylist pattern with the denylist error — the allowlist (which may also
match) is never consulted. -/
theorem domainPolicy_wildcard_and_denylist :
    (∀ d h : String, d ≠ "" → normalizePattern ("*." ++ d) = "*." ++ d →
      (matchesPattern ("*." ++ d) h = true ↔
        ∃ pre, normalizeHostname h = pre ++ "." ++ d)) ∧
    (∀ d h : String, d ≠ "" → normalizePattern ("." ++ d) = "." ++ d →
      (matchesPattern ("." ++ d) h = true ↔
        ∃ pre, normalizeHostname h = pre ++ "." ++ d)) ∧
    (∀ d h : String, d ≠ "" → normalizePattern ("*." ++ d) = "*." ++ d →
      normalizeHostname h = d → matchesPattern ("*." ++ d) h = false) ∧
    (∀ (host : String) (allowlist denylist : List String) (p : String),
      host ≠ "" → matchesAny denylist host = some p →
      assertUrlAllowedByDomainPolicy (some host) allowlist denylist =
        .error (.blockedByDenylist p)) := by
  refine ⟨matchesPattern_star_iff, matchesPattern_dot_iff, ?_, ?_⟩
  · intro d h hd hnorm hbare
    apply Bool.eq_false_iff.mpr
    intro hm
    obtain ⟨pre, hpre⟩ := (matchesPattern_star_iff d h hd hnorm).mp hm
    rw [hbare] at hpre
    exact append_dot_append_ne pre d hpre.symm
  · intro host allowlist denylist p hne hdeny
    rw [assertUrlAllowedByDomainPolicy, if_neg hne, hdeny]

/-- Witness for C9: `*.example.com` matches `a.example.com` but not the
bare `example.com`; a URL whose host is denylisted (and allowlisted) is
rejected with the denylist error. -/
theorem domainPolicy_wildcard_and_denylist_witness :
    (matchesPattern "*.example.com" "a.example.com" = true ↔
      ∃ pre, normalizeHostname "a.example.com" = pre ++ "." ++ "example.com") ∧
    matchesPattern "*.example.com" "example.com" = false ∧
    assertUrlAllowedByDomainPolicy (some "evil.example.com") ["evil.example.com"]
      ["*.example.com"] = .error (.blockedByDenylist "*.example.com") := by
  refine ⟨?_, ?_, ?_⟩
  · exact domainPolicy_wildcard_and_denylist.1 "example.com" "a.example.com"
      (by decide) (by decide)
  · exact domainPolicy_wildcard_and_denylist.2.2.1 "example.com" "example.com"
      (by decide) (by decide) (by decide)
  · exact domainPolicy_wildcard_and_denylist.2.2.2 "evil.example.com"
      ["evil.example.com"] ["*.example.com"] "*.example.com" (by decide) (by decide)

/-! ## json_diff.ts -/

/-- Parsed JSON values (`JSON.parse` output).  JavaScript numbers are
carried as exact rationals; `NaN` cannot appear in `JSON.parse` output. -/
inductive JsValue where
  | null
  | bool (b : Bool)
  | num (q : ℚ)
  | str (s : String)
  | arr (elems : List JsValue)
  | obj (members : List (String × JsValue))
deriving Repr

/-- JavaScript `prev !== curr` (negated) on two values neither of which
is handled by the array/array or object/object branches of `diffInner`:
value equality on primitives, and reference inequality — always unequal —
on any remaining combination involving arrays or objects. -/
def jsStrictEq : JsValue → JsValue → Bool
  | .null, .null => true
  | .bool a, .bool b => a == b
  | .num a, .num b => a == b
  | .str a, .str b => a == b
  | _, _ => false

/-- `escapePointerSegment` of src/json_diff.ts.  The source applies
`replace(~ → ~0)` then `replace(/ → ~1)`; since the first pass introduces
no `/` and the second rewrites only original `/` characters, this equals
the character-wise map below. -/
def escapePointerSegment (seg : String) : String :=
  ⟨seg.data.flatMap fun c =>
    if c = '~' then ['~', '0'] else if c = '/' then ['~', '1'] else [c]⟩

/-- `joinPath` of src/json_diff.ts. -/
def joinPath (base seg : String) : String :=
  if base = "" then "/" ++ escapePointerSegment seg
  else base ++ "/" ++ escapePointerSegment seg

/-- `shouldIgnore` of src/json_diff.ts: empty patterns are skipped; a
path is ignored when it equals a pattern or extends a non-root pattern
by `/`. -/
def shouldIgnore (path : String) (ignore : List String) : Bool :=
  ignore.any fun p =>
    if p = "" then false
    else if path = p then true
    else if p ≠ "/" ∧ jsStartsWith path (p ++ "/") then true
    else false

inductive DiffOp where
  | add
  | remove
  | replace
deriving Repr, DecidableEq

/-- One output entry of `diffJson`. -/
structure JsonDiffEntry where
  path : String
  op : DiffOp
  old : Option JsValue
  new : Option JsValue
deriving Repr

/-- `k in obj ? obj[k] : MISSING` over an association-list object. -/
def lookupMember (ms : List (String × JsValue)) (k : String) : Option JsValue :=
  (ms.find? (fun m => m.1 == k)).map (fun m => m.2)

/-- Lexicographic code-unit comparison, the default JavaScript
`Array.prototype.sort` string order (and the model of `localeCompare`,
which agrees with it on ASCII data). -/
def charListLe : List Char → List Char → Bool
  | [], _ => true
  | _ :: _, [] => false
  | a :: as, b :: bs =>
    if a.toNat < b.toNat then true
    else if b.toNat < a.toNat then false
    else charListLe as bs

theorem sizeOf_getElem?_lt (xs : List JsValue) (i : Nat) :
    sizeOf xs[i]? < 2 + sizeOf xs := by
  rcases h : xs[i]? with _ | x
  · simp
    omega
  · have hx : x ∈ xs := List.getElem?_mem h
    have := List.sizeOf_lt_of_mem hx
    simp
    omega

theorem sizeOf_lookupMember_lt (ms : List (String × JsValue)) (k : String) :
    sizeOf (lookupMember ms k) < 2 + sizeOf ms := by
  rcases h : lookupMember ms k with _ | v
  · simp
    omega
  · rw [lookupMember] at h
    rcases hf : ms.find? (fun m => m.1 == k) with _ | m
    · rw [hf] at h
      simp at h
    · rw [hf] at h
      simp at h
      have hm : m ∈ ms := List.mem_of_find?_eq_some hf
      have := List.sizeOf_lt_of_mem hm
      rcases m with ⟨k', v'⟩
      simp at this h ⊢
      subst h
      omega

/-- `diffInner` of src/json_diff.ts; `none` models the `MISSING`
sentinel.  Returns the entries pushed to `out`, in push order. -/
def diffInner (prev curr : Option JsValue) (path : String) (ignore : List String) :
    List JsonDiffEntry :=
  if shouldIgnore path ignore then []
  else
    match prev, curr with
    | none, none => []
    | none, some c => [⟨path, .add, none, some c⟩]
    | some p, none => [⟨path, .remove, some p, none⟩]
    | some (.arr ps), some (.arr cs) =>
      (List.range (max ps.length cs.length)).flatMap fun i =>
        diffInner ps[i]? cs[i]? (joinPath path (toString i)) ignore
    | some (.obj pm), some (.obj cm) =>
      (((pm.map Prod.fst ++ cm.map Prod.fst).dedup).mergeSort
          (fun a b => charListLe a.data b.data)).flatMap fun k =>
        diffInner (lookupMember pm k) (lookupMember cm k) (joinPath path k) ignore
    | some p, some c =>
      if jsStrictEq p c then [] else [⟨path, .replace, some p, some c⟩]
termination_by sizeOf prev + sizeOf curr
decreasing_by
  · have h1 := sizeOf_getElem?_lt ps i
    have h2 := sizeOf_getElem?_lt cs i
    simp
    omega
  · have h1 := sizeOf_lookupMember_lt pm k
    have h2 := sizeOf_lookupMember_lt cm k
    simp
    omega

/-- `diffJson` of src/json_diff.ts: run `diffInner` at the root and sort
the entries by path. -/
def diffJson (previous current : JsValue) (ignoreJsonPointers : List String) :
    List JsonDiffEntry :=
  (diffInner (some previous) (some current) "" ignoreJsonPointers).mergeSort
    (fun a b => charListLe a.path.data b.path.data)

/-! ### C7: ignore pointers prune whole subtrees -/

/-- A diff path `q` violates the ignore guarantee for pointer `P` when it
equals `P` or extends it by a `/`-separated suffix. -/
def violates (P q : String) : Prop :=
  q = P ∨ jsStartsWith q (P ++ "/") = true

theorem jsStartsWith_iff (s p : String) :
    jsStartsWith s p = true ↔ p.data <+: s.data := by
  simp [jsStartsWith]

theorem slash_not_mem_escape (seg : String) :
    '/' ∉ (escapePointerSegment seg).data := by
  intro hmem
  rw [escapePointerSegment] at hmem
  simp only [List.mem_flatMap] at hmem
  obtain ⟨c, _, hc⟩ := hmem
  by_cases h1 : c = '~'
  · simp [h1] at hc
  · by_cases h2 : c = '/'
    · simp [h1, h2] at hc
    · simp [h1, h2] at hc
      exact h2 hc.symm

theorem shouldIgnore_self (P : String) (ignore : List String)
    (hmem : P ∈ ignore) (hP : P ≠ "") : shouldIgnore P ignore = true := by
  rw [shouldIgnore, List.any_eq_true]
  exact ⟨P, hmem, by simp [hP]⟩

theorem shouldIgnore_mono (P q : String) (ignore : List String)
    (hmem : P ∈ ignore) (hP : P ≠ "") (hPr : P ≠ "/")
    (hpre : jsStartsWith q (P ++ "/") = true) : shouldIgnore q ignore = true := by
  rw [shouldIgnore, List.any_eq_true]
  refine ⟨P, hmem, ?_⟩
  by_cases hqP : q = P <;> simp [hP, hqP, hPr, hpre]

theorem diffInner_of_ignored (prev curr : Option JsValue) (path : String)
    (ignore : List String) (h : shouldIgnore path ignore = true) :
    diffInner prev curr path ignore = [] := by
  rw [diffInner.eq_def, h]
  simp

theorem jsStartsWith_empty (t : String) (h : jsStartsWith "" t = true) :
    t = "" := by
  rw [jsStartsWith_iff] at h
  have : t.data = [] := List.prefix_nil.mp (by simpa using h)
  exact String.ext this

theorem doubleslash_not_prefix_joinPath (path seg : String)
    (h1 : path ≠ "/") (h2 : jsStartsWith path "//" = false) :
    jsStartsWith (joinPath path seg) "//" = false := by
  apply Bool.eq_false_iff.mpr
  intro hpre
  rw [jsStartsWith_iff] at hpre
  obtain ⟨t, ht⟩ := hpre
  have hdd : ("//" : String).data = ['/', '/'] := rfl
  rw [hdd] at ht
  rw [joinPath] at ht
  by_cases hp : path = ""
  · rw [if_pos hp] at ht
    have hq : (("/" : String) ++ escapePointerSegment seg).data =
        '/' :: (escapePointerSegment seg).data := by
      rw [String.data_append]
      rfl
    rw [hq] at ht
    simp only [List.cons_append, List.nil_append, List.cons.injEq] at ht
    have : '/' ∈ (escapePointerSegment seg).data := by
      rw [← ht.2]
      simp
    exact slash_not_mem_escape seg this
  · rw [if_neg hp] at ht
    obtain ⟨c, cs, hdata⟩ : ∃ c cs, path.data = c :: cs := by
      rcases hd : path.data with _ | ⟨c, cs⟩
      · exact absurd (String.ext hd) hp
      · exact ⟨c, cs, rfl⟩
    have hq : ((path ++ "/") ++ escapePointerSegment seg).data =
        c :: (cs ++ '/' :: (escapePointerSegment seg).data) := by
      rw [String.data_append, String.data_append, hdata]
      simp
    rw [hq] at ht
    simp only [List.cons_append, List.nil_append, List.cons.injEq] at ht
    obtain ⟨hc, ht2⟩ := ht
    rcases cs with _ | ⟨c2, cs2⟩
    · simp only [List.nil_append, List.cons.injEq] at ht2
      exact h1 (String.ext (by rw [hdata, ← hc]))
    · simp only [List.cons_append, List.cons.injEq] at ht2
      obtain ⟨hc2, -⟩ := ht2
      have hstart : jsStartsWith path "//" = true := by
        rw [jsStartsWith_iff, hdata, hdd, ← hc, ← hc2]
        exact ⟨cs2, rfl⟩
      rw [hstart] at h2
      exact Bool.true_eq_false.mp h2

theorem not_violates_joinPath (P path seg : String) (ignore : List String)
    (hmem : P ∈ ignore) (hP : P ≠ "")
    (hpath : ¬ violates P path)
    (hq : shouldIgnore (joinPath path seg) ignore = false) :
    ¬ violates P (joinPath path seg) := by
  intro hbad
  rcases hbad with heq | hpre
  · rw [heq] at hq
    have hself := shouldIgnore_self P ignore hmem hP
    rw [hq] at hself
    exact Bool.false_eq_true.mp hself
  · by_cases hPr : P = "/"
    · subst hPr
      have h1 : path ≠ "/" := fun hc => hpath (Or.inl hc)
      have h2 : jsStartsWith path "//" = false := by
        rcases hb : jsStartsWith path ("/" ++ "/") with _ | _
        · exact hb
        · exact absurd (Or.inr hb) hpath
      have hconv : ("/" ++ "/" : String) = "//" := rfl
      rw [hconv] at hpre
      have hfalse := doubleslash_not_prefix_joinPath path seg h1 h2
      rw [hpre] at hfalse
      exact Bool.true_eq_false.mp hfalse
    · rw [shouldIgnore_mono P (joinPath path seg) ignore hmem hP hPr hpre] at hq
      exact Bool.true_eq_false.mp hq

/-- Value of `diffInner` in the primitive-or-type-mismatch arm. -/
theorem diffInner_catchall (p c : JsValue) (path : String) (ignore : List String)
    (hig : ¬ shouldIgnore path ignore = true)
    (hne : ∀ ps cs, p = JsValue.arr ps → c = JsValue.arr cs → False)
    (hno : ∀ pm cm, p = JsValue.obj pm → c = JsValue.obj cm → False) :
    diffInner (some p) (some c) path ignore =
      if jsStrictEq p c = true then []
      else [⟨path, .replace, some p, some c⟩] := by
  rw [diffInner.eq_def, if_neg hig]
  rcases p with _ | _ | _ | _ | ps | pm <;> rcases c with _ | _ | _ | _ | cs | cm <;>
    first
      | exact (hne _ _ rfl rfl).elim
      | exact (hno _ _ rfl rfl).elim
      | rfl

theorem diffInner_no_violating_paths (P : String) :
    ∀ (prev curr : Option JsValue) (path : String) (ignore : List String),
      P ∈ ignore → P ≠ "" → ¬ violates P path →
      ∀ e ∈ diffInner prev curr path ignore, ¬ violates P e.path := by
  intro prev curr path ignore
  induction prev, curr, path, ignore using diffInner.induct with
  | case1 prev curr path ignore hig =>
    intro _ _ _ e he
    rw [diffInner_of_ignored _ _ _ _ hig] at he
    exact absurd he (List.not_mem_nil e)
  | case2 path ignore hig =>
    intro _ _ _ e he
    rw [diffInner.eq_def, if_neg hig] at he
    simp at he
  | case3 path ignore hig c =>
    intro _ _ hpath e he
    rw [diffInner.eq_def, if_neg hig] at he
    simp at he
    rw [he]
    exact hpath
  | case4 path ignore hig p =>
    intro _ _ hpath e he
    rw [diffInner.eq_def, if_neg hig] at he
    simp at he
    rw [he]
    exact hpath
  | case5 path ignore hig ps cs ih =>
    intro hmem hP hpath e he
    rw [diffInner.eq_def, if_neg hig] at he
    simp only [List.mem_flatMap, List.mem_range] at he
    obtain ⟨i, -, hei⟩ := he
    by_cases hsi : shouldIgnore (joinPath path (toString i)) ignore = true
    · rw [diffInner_of_ignored _ _ _ _ hsi] at hei
      exact absurd hei (List.not_mem_nil e)
    · have hnv := not_violates_joinPath P path (toString i) ignore hmem hP hpath
        (Bool.eq_false_iff.mpr hsi)
      exact ih i hmem hP hnv e hei
  | case6 path ignore hig pm cm ih =>
    intro hmem hP hpath e he
    rw [diffInner.eq_def, if_neg hig] at he
    simp only [List.mem_flatMap] at he
    obtain ⟨k, -, hek⟩ := he
    by_cases hsi : shouldIgnore (joinPath path k) ignore = true
    · rw [diffInner_of_ignored _ _ _ _ hsi] at hek
      exact absurd hek (List.not_mem_nil e)
    · have hnv := not_violates_joinPath P path k ignore hmem hP hpath
        (Bool.eq_false_iff.mpr hsi)
      exact ih k hmem hP hnv e hek
  | case7 path ignore hig p c hne hno hj =>
    intro _ _ _ e he
    rw [diffInner_catchall p c path ignore hig hne hno, if_pos hj] at he
    exact absurd he (List.not_mem_nil e)
  | case8 path ignore hig p c hne hno hj =>
    intro _ _ hpath e he
    rw [diffInner_catchall p c path ignore hig hne hno, if_neg hj] at he
    simp at he
    rw [he]
    exact hpath

/-- **C7 (amended).** For every pair of JSON values and every
ignore-pointer list containing a *nonempty* pointer `P`, no entry of
`diffJson` has a path equal to `P` or starting with `P ++ "/"`: subtrees
at or below an ignore pointer are skipped.  (The empty pointer, which
RFC 6901 reads as the whole document, is deliberately skipped by
`shouldIgnore`, so the claim fails for `P = ""` — see the
counterexample.) -/
theorem diffJson_respects_ignorePointers (previous current : JsValue)
    (ignore : List String) (P : String) (hmem : P ∈ ignore) (hP : P ≠ "") :
    ∀ e ∈ diffJson previous current ignore,
      e.path ≠ P ∧ jsStartsWith e.path (P ++ "/") = false := by
  intro e he
  rw [diffJson] at he
  rw [List.mem_mergeSort] at he
  have hroot : ¬ violates P "" := by
    intro hv
    rcases hv with heq | hpre
    · exact hP heq.symm
    · have := jsStartsWith_empty _ hpre
      have hlen := congrArg (fun s : String => s.data.length) this
      simp [String.data_append] at hlen
  have := diffInner_no_violating_paths P (some previous) (some current) "" ignore
    hmem hP hroot e he
  constructor
  · exact fun hc => this (Or.inl hc)
  · rcases hb : jsStartsWith e.path (P ++ "/") with _ | _
    · rfl
    · exact absurd (Or.inr hb) this

/-- The root replace entry emitted by `diffJson 1 2 ["/a"]`. -/
def c7Entry : JsonDiffEntry :=
  ⟨"", .replace, some (.num 1), some (.num 2)⟩

/-- Witness for the amended C7 at a concrete input: `/a` is a nonempty
member of the ignore list, the root replace entry is in
`diffJson 1 2 ["/a"]`, and its path avoids the ignored pointer. -/
theorem diffJson_respects_ignorePointers_witness :
    ("/a" : String) ∈ (["/a"] : List String) ∧
    ("/a" : String) ≠ "" ∧
    c7Entry ∈ diffJson (.num 1) (.num 2) ["/a"] ∧
    (c7Entry.path ≠ "/a" ∧ jsStartsWith c7Entry.path ("/a" ++ "/") = false) := by
  have hm : c7Entry ∈ diffJson (.num 1) (.num 2) ["/a"] := by
    have h1 : shouldIgnore "" ["/a"] = false := by decide
    have h2 : diffInner (some (.num 1)) (some (.num 2)) "" ["/a"] = [c7Entry] := by
      rw [diffInner.eq_def, h1]
      have h3 : jsStrictEq (.num 1) (.num 2) = false := by
        rw [jsStrictEq]
        simp only [beq_eq_false_iff_ne, ne_eq]
        norm_num
      simp [h3, c7Entry]
    rw [diffJson, List.mem_mergeSort, h2]
    simp
  exact ⟨by simp, by decide, hm,
    diffJson_respects_ignorePointers (.num 1) (.num 2) ["/a"] "/a" (by simp) (by decide)
      c7Entry hm⟩

/-- Counterexample to C7 as stated: with the (empty) pointer `""` in the
ignore list, `diffJson 1 2 [""]` still emits an entry whose path `""`
equals the pointer — `shouldIgnore` skips empty patterns. -/
theorem diffJson_empty_pointer_counterexample :
    ("" : String) ∈ [("" : String)] ∧
    ∃ e ∈ diffJson (.num 1) (.num 2) [("" : String)], e.path = "" := by
  refine ⟨by simp, ?_⟩
  have h1 : shouldIgnore "" [("" : String)] = false := by
    rw [shouldIgnore]
    simp
  have h2 : diffInner (some (.num 1)) (some (.num 2)) "" [("" : String)] =
      [⟨"", .replace, some (.num 1), some (.num 2)⟩] := by
    rw [diffInner.eq_def, h1]
    have : jsStrictEq (.num 1) (.num 2) = false := by
      rw [jsStrictEq]
      simp only [beq_eq_false_iff_ne, ne_eq]
      norm_num
    simp [this]
  refine ⟨⟨"", .replace, some (.num 1), some (.num 2)⟩, ?_, rfl⟩
  rw [diffJson, List.mem_mergeSort, h2]
  simp

/-! ## hash.ts — SHA-256 and HMAC-SHA-256 (node:crypto)

`sha256Hex` and `hmacSha256Hex` of src/hash.ts wrap node's `createHash` /
`createHmac`; they are modelled by a direct FIPS 180-4 / RFC 2104
implementation over UTF-8 byte lists (bytes and 32-bit words are `Nat`
reduced mod `2^32` where overflow matters). -/

/-- UTF-8 encoding of one character. -/
def utf8EncodeChar (c : Char) : List Nat :=
  let n := c.toNat
  if n < 0x80 then [n]
  else if n < 0x800 then
    [0xC0 ||| (n >>> 6), 0x80 ||| (n &&& 0x3F)]
  else if n < 0x10000 then
    [0xE0 ||| (n >>> 12), 0x80 ||| ((n >>> 6) &&& 0x3F), 0x80 ||| (n &&& 0x3F)]
  else
    [0xF0 ||| (n >>> 18), 0x80 ||| ((n >>> 12) &&& 0x3F),
      0x80 ||| ((n >>> 6) &&& 0x3F), 0x80 ||| (n &&& 0x3F)]

/-- UTF-8 encoding of a string, as a byte list. -/
def utf8Encode (s : String) : List Nat :=
  s.data.flatMap utf8EncodeChar

/-- `Buffer.byteLength(s, 'utf8')`. -/
def utf8ByteLength (s : String) : Nat :=
  (utf8Encode s).length

/-- Right rotation of a 32-bit word. -/
def rotr32 (n x : Nat) : Nat :=
  ((x >>> n) ||| (x <<< (32 - n))) % 2 ^ 32

/-- The SHA-256 round constants (FIPS 180-4 §4.2.2, in decimal). -/
def sha256K : Array Nat := #[
  1116352408, 1899447441, 3049323471, 3921009573, 961987163, 1508970993,
  2453635748, 2870763221, 3624381080, 310598401, 607225278, 1426881987,
  1925078388, 2162078206, 2614888103, 3248222580, 3835390401, 4022224774,
  264347078, 604807628, 770255983, 1249150122, 1555081692, 1996064986,
  2554220882, 2821834349, 2952996808, 3210313671, 3336571891, 3584528711,
  113926993, 338241895, 666307205, 773529912, 1294757372, 1396182291,
  1695183700, 1986661051, 2177026350, 2456956037, 2730485921, 2820302411,
  3259730800, 3345764771, 3516065817, 3600352804, 4094571909, 275423344,
  430227734, 506948616, 659060556, 883997877, 958139571, 1322822218,
  1537002063, 1747873779, 1955562222, 2024104815, 2227730452, 2361852424,
  2428436474, 2756734187, 3204031479, 3329325298]

/-- The SHA-256 initial hash value (FIPS 180-4 §5.3.3, in decimal). -/
def sha256H0 : Array Nat := #[
  1779033703, 3144134277, 1013904242, 2773480762,
  1359893119, 2600822924, 528734635, 1541459225]

/-- Big-endian 32-bit words from a byte list (length a multiple of 4). -/
def bytesToWords : List Nat → List Nat
  | b0 :: b1 :: b2 :: b3 :: rest => (((b0 * 256 + b1) * 256 + b2) * 256 + b3) :: bytesToWords rest
  | _ => []

/-- The 64-word message schedule from the 16 words of one block. -/
def sha256Schedule (w16 : List Nat) : Array Nat :=
  (List.range 48).foldl
    (fun w i =>
      let t := i + 16
      let s0 := (rotr32 7 w[t - 15]! ^^^ rotr32 18 w[t - 15]!) ^^^ (w[t - 15]! >>> 3)
      let s1 := (rotr32 17 w[t - 2]! ^^^ rotr32 19 w[t - 2]!) ^^^ (w[t - 2]! >>> 10)
      w.push ((w[t - 16]! + s0 + w[t - 7]! + s1) % 2 ^ 32))
    w16.toArray

/-- One SHA-256 compression round. -/
def sha256Round (st : Nat × Nat × Nat × Nat × Nat × Nat × Nat × Nat) (kw : Nat) :
    Nat × Nat × Nat × Nat × Nat × Nat × Nat × Nat :=
  let (a, b, c, d, e, f, g, h) := st
  let bigS1 := (rotr32 6 e ^^^ rotr32 11 e) ^^^ rotr32 25 e
  let ch := (e &&& f) ^^^ ((2 ^ 32 - 1 - e) &&& g)
  let temp1 := (h + bigS1 + ch + kw) % 2 ^ 32
  let bigS0 := (rotr32 2 a ^^^ rotr32 13 a) ^^^ rotr32 22 a
  let maj := (a &&& b) ^^^ (a &&& c) ^^^ (b &&& c)
  let temp2 := (bigS0 + maj) % 2 ^ 32
  ((temp1 + temp2) % 2 ^ 32, a, b, c, (d + temp1) % 2 ^ 32, e, f, g)

/-- Compress one 64-byte block into the running hash. -/
def sha256Compress (hs : Array Nat) (block : List Nat) : Array Nat :=
  let w := sha256Schedule (bytesToWords block)
  let init := (hs[0]!, hs[1]!, hs[2]!, hs[3]!, hs[4]!, hs[5]!, hs[6]!, hs[7]!)
  let fin := (List.range 64).foldl
    (fun st t => sha256Round st ((sha256K[t]! + w[t]!) % 2 ^ 32)) init
  let (a, b, c, d, e, f, g, h) := fin
  #[(hs[0]! + a) % 2 ^ 32, (hs[1]! + b) % 2 ^ 32, (hs[2]! + c) % 2 ^ 32,
    (hs[3]! + d) % 2 ^ 32, (hs[4]! + e) % 2 ^ 32, (hs[5]! + f) % 2 ^ 32,
    (hs[6]! + g) % 2 ^ 32, (hs[7]! + h) % 2 ^ 32]

/-- Split a byte list into 64-byte chunks. -/
def chunks64 (l : List Nat) : List (List Nat) :=
  if h : l = [] then []
  else (l.take 64) :: chunks64 (l.drop 64)
termination_by l.length
decreasing_by
  have : 0 < l.length := List.length_pos.mpr h
  simp
  omega

/-- Big-endian 8-byte encoding of the bit length. -/
def be64 (n : Nat) : List Nat :=
  [(n >>> 56) % 256, (n >>> 48) % 256, (n >>> 40) % 256, (n >>> 32) % 256,
   (n >>> 24) % 256, (n >>> 16) % 256, (n >>> 8) % 256, n % 256]

/-- A 32-bit word as four big-endian bytes. -/
def wordToBytes (w : Nat) : List Nat :=
  [(w >>> 24) % 256, (w >>> 16) % 256, (w >>> 8) % 256, w % 256]

/-- SHA-256 of a byte list, as 32 bytes. -/
def sha256Bytes (msg : List Nat) : List Nat :=
  let padZeros := (119 - msg.length % 64) % 64
  let padded := msg ++ [0x80] ++ List.replicate padZeros 0 ++ be64 (msg.length * 8)
  let final := (chunks64 padded).foldl sha256Compress sha256H0
  final.toList.flatMap wordToBytes

/-- A half-byte as a lowercase hex digit. -/
def hexDigit (n : Nat) : Char :=
  if n < 10 then Char.ofNat (48 + n) else Char.ofNat (87 + n)

/-- A byte as two lowercase hex digits. -/
def byteToHex (b : Nat) : List Char :=
  [hexDigit (b / 16), hexDigit (b % 16)]

/-- `sha256Hex` of src/hash.ts. -/
def sha256Hex (input : String) : String :=
  ⟨(sha256Bytes (utf8Encode input)).flatMap byteToHex⟩

/-- `hmacSha256Hex` of src/hash.ts (RFC 2104 with a 64-byte block). -/
def hmacSha256Hex (secret input : String) : String :=
  let key := utf8Encode secret
  let key2 := if 64 < key.length then sha256Bytes key else key
  let keyPad := key2 ++ List.replicate (64 - key2.length) 0
  let ipad := keyPad.map (fun b => b ^^^ 0x36)
  let opad := keyPad.map (fun b => b ^^^ 0x5c)
  ⟨(sha256Bytes (opad ++ sha256Bytes (ipad ++ utf8Encode input))).flatMap byteToHex⟩

/-! ## JSON.stringify (the fragment the sources feed it) -/

/-- The JSON values built by `makeStateKeyV1/V2` and `computeEventId`:
null, booleans, integers (the only numbers those functions serialize),
strings, arrays and objects with insertion-ordered keys. -/
inductive JTok where
  | null
  | bool (b : Bool)
  | int (n : Int)
  | str (s : String)
  | arr (xs : List JTok)
  | obj (members : List (String × JTok))
deriving Repr

/-- `JSON.stringify` escaping of one character inside a string literal. -/
def jsonEscapeChar (c : Char) : List Char :=
  if c = '"' then ['\\', '"']
  else if c = '\\' then ['\\', '\\']
  else if c = '\x08' then ['\\', 'b']
  else if c = '\x09' then ['\\', 't']
  else if c = '\x0a' then ['\\', 'n']
  else if c = '\x0c' then ['\\', 'f']
  else if c = '\x0d' then ['\\', 'r']
  else if c.toNat < 0x20 then
    ['\\', 'u', '0', '0', hexDigit (c.toNat / 16), hexDigit (c.toNat % 16)]
  else [c]

/-- `JSON.stringify` of a string value (quoted and escaped). -/
def jsonQuote (s : String) : String :=
  "\"" ++ ⟨s.data.flatMap jsonEscapeChar⟩ ++ "\""

/-- Comma-separated concatenation. -/
def commaJoin (parts : List String) : String :=
  match parts with
  | [] => ""
  | p :: rest => rest.foldl (fun acc q => acc ++ "," ++ q) p

/-- `JSON.stringify` on the `JTok` fragment. -/
def jsonStringify : JTok → String
  | .null => "null"
  | .bool true => "true"
  | .bool false => "false"
  | .int n => toString n
  | .str s => jsonQuote s
  | .arr xs => "[" ++ commaJoin (xs.attach.map fun x => jsonStringify x.1) ++ "]"
  | .obj ms => "\x7b" ++
      commaJoin (ms.attach.map fun m => jsonQuote m.1.1 ++ ":" ++ jsonStringify m.1.2) ++ "\x7d"
termination_by t => sizeOf t
decreasing_by
  · have := List.sizeOf_lt_of_mem x.2
    simp
    omega
  · have := List.sizeOf_lt_of_mem m.2
    rcases m with ⟨⟨k, v⟩, hm⟩
    simp at this ⊢
    omega

/-! ## state.ts -/

/-- Stable insertion into a sorted list (used to model JavaScript
`Array.prototype.sort`, which is a stable comparison sort; on the
pairwise-distinct key lists of `makeStateKeyV2` every stable sort agrees
with it). -/
def insertSorted (le : α → α → Bool) (x : α) : List α → List α
  | [] => [x]
  | y :: ys => if le x y then x :: y :: ys else y :: insertSorted le x ys

/-- JavaScript `Array.prototype.sort` with comparator `le` (code-unit
string order for `.sort()`, and the model of `localeCompare`, which
agrees with it on the ASCII data at hand). -/
def jsSortBy (le : α → α → Bool) : List α → List α
  | [] => []
  | x :: xs => insertSorted le x (jsSortBy le xs)

/-- Code-unit string comparison used for JavaScript string sorts. -/
def strLe (a b : String) : Bool :=
  charListLe a.data b.data

/-- `FieldSpec` of src/types.ts. -/
inductive FieldSpec where
  | text (name selector : String)
  | attr (name selector attrName : String)
deriving Repr, DecidableEq

def FieldSpec.name : FieldSpec → String
  | .text n _ => n
  | .attr n _ _ => n

/-- `CookieSpec` of src/types.ts. -/
structure CookieSpec where
  name : String
  value : String
  domain : Option String := none
  path : Option String := none
  expires : Option Int := none
  httpOnly : Option Bool := none
  secure : Option Bool := none
  sameSite : Option String := none
deriving Repr, DecidableEq

/-- `StateKeyV2Input` of src/state.ts.  The `Record<string,string>` of
`fetchHeaders` is an insertion-ordered association list with distinct
keys; the enum-typed options are carried as their string values. -/
structure StateKeyV2Input where
  targetUrl : String
  selector : Option String
  renderingMode : String
  waitUntil : String
  waitForSelector : Option String
  waitForSelectorTimeoutSecs : Int
  fetchHeaders : List (String × String)
  targetMethod : Option String
  targetBody : Option String
  targetCookies : Option (List CookieSpec)
  robotsTxtMode : Option String
  blockPageRegexes : Option (List String)
  selectorAggregationMode : Option String
  whitespaceMode : Option String
  unicodeNormalization : Option String
  fields : List FieldSpec
  ignoreJsonPaths : List String
  ignoreSelectors : List String
  ignoreAttributes : List String
  ignoreRegexes : List String
deriving Repr, DecidableEq

/-- JavaScript `String.prototype.toUpperCase`, ASCII fragment. -/
def jsToUpperCase (s : String) : String :=
  ⟨s.data.map (fun c => if 'a' ≤ c ∧ c ≤ 'z' then Char.ofNat (c.toNat - 32) else c)⟩

/-- First value stored under a key of a JavaScript record. -/
def recordGet (r : List (String × String)) (k : String) : String :=
  ((r.find? (fun m => m.1 == k)).map (fun m => m.2)).getD ""

/-- An optional string as a JSON value (`x ?? null`). -/
def optStr : Option String → JTok
  | some s => .str s
  | none => .null

/-- `s.slice(0, n)`. -/
def strTake (s : String) (n : Nat) : String :=
  ⟨s.data.take n⟩

/-- The `keyMaterial` JSON value of `makeStateKeyV1` (src/state.ts). -/
def keyMaterialV1 (targetUrl : String) (selector : Option String) : JTok :=
  .obj [("v", .int 1), ("targetUrl", .str targetUrl), ("selector", optStr selector)]

/-- `makeStateKeyV1` of src/state.ts. -/
def makeStateKeyV1 (targetUrl : String) (selector : Option String) : String :=
  "snapshot-" ++ strTake (sha256Hex (jsonStringify (keyMaterialV1 targetUrl selector))) 32

/-- The `keyMaterial` JSON value of `makeStateKeyV2` (src/state.ts),
member by member in the order of the object literal, with the
conditionally-spread members materialised as list concatenations. -/
def keyMaterialV2 (input : StateKeyV2Input) : JTok :=
  let headers := (jsSortBy strLe (input.fetchHeaders.map Prod.fst)).map
    (fun k => JTok.arr [.str (jsToLowerCase k), .str (recordGet input.fetchHeaders k)])
  let fields := jsSortBy (fun a b => strLe a.name b.name) input.fields |>.map
    (fun f => match f with
      | .text n sel => JTok.obj [("name", .str n), ("selector", .str sel), ("type", .str "text")]
      | .attr n sel a => JTok.obj
          [("name", .str n), ("selector", .str sel), ("type", .str "attribute"),
            ("attribute", .str a)])
  let ignoreJsonPaths := jsSortBy strLe input.ignoreJsonPaths
  let targetMethod := jsToUpperCase (input.targetMethod.getD "GET")
  let targetBodyHash : Option String :=
    match input.targetBody with
    | some b => if b = "" then none else some (sha256Hex b)
    | none => none
  let targetCookies : Option (List JTok) :=
    match input.targetCookies with
    | some cs =>
      if cs.length > 0 then
        some ((jsSortBy (fun a b => strLe a.name b.name) cs).map fun c =>
          JTok.obj [("name", .str c.name), ("value", .str c.value),
            ("domain", optStr c.domain), ("path", optStr c.path)])
      else none
    | none => none
  .obj
    ([("v", .int 2),
      ("targetUrl", .str input.targetUrl),
      ("selector", optStr input.selector),
      ("renderingMode", .str input.renderingMode),
      ("waitUntil", .str input.waitUntil),
      ("waitForSelector", optStr input.waitForSelector),
      ("waitForSelectorTimeoutSecs", .int input.waitForSelectorTimeoutSecs),
      ("fetchHeaders", .arr headers)]
    ++ (if targetMethod ≠ "GET" then [("targetMethod", JTok.str targetMethod)] else [])
    ++ (match targetBodyHash with
        | some h => [("targetBodyHash", JTok.str h)]
        | none => [])
    ++ (match targetCookies with
        | some cs => [("targetCookies", JTok.arr cs)]
        | none => [])
    ++ (match input.robotsTxtMode with
        | some m => if m ≠ "ignore" then [("robotsTxtMode", JTok.str m)] else []
        | none => [])
    ++ (match input.blockPageRegexes with
        | some rs =>
          if rs.length > 0 then [("blockPageRegexes", JTok.arr ((jsSortBy strLe rs).map .str))]
          else []
        | none => [])
    ++ (match input.selectorAggregationMode with
        | some m => if m ≠ "all" then [("selectorAggregationMode", JTok.str m)] else []
        | none => [])
    ++ (match input.whitespaceMode with
        | some m => if m ≠ "collapse" then [("whitespaceMode", JTok.str m)] else []
        | none => [])
    ++ (match input.unicodeNormalization with
        | some m => if m ≠ "none" then [("unicodeNormalization", JTok.str m)] else []
        | none => [])
    ++ [("fields", .arr fields),
        ("ignoreJsonPaths", .arr (ignoreJsonPaths.map .str)),
        ("ignoreSelectors", .arr (input.ignoreSelectors.map .str)),
        ("ignoreAttributes", .arr (input.ignoreAttributes.map .str)),
        ("ignoreRegexes", .arr (input.ignoreRegexes.map .str))])

/-- `makeStateKeyV2` of src/state.ts. -/
def makeStateKeyV2 (input : StateKeyV2Input) : String :=
  "snapshot-" ++ strTake (sha256Hex (jsonStringify (keyMaterialV2 input))) 32

/-! ## removeJsonPointerPaths (src/normalize.ts JSON-mode helper) -/

/-- Split a character list at a separator, JavaScript
`String.prototype.split` semantics (`"".split` gives `[""]`). -/
def splitOnChar (sep : Char) : List Char → List (List Char)
  | [] => [[]]
  | c :: rest =>
    let r := splitOnChar sep rest
    if c = sep then [] :: r
    else
      match r with
      | h :: t => (c :: h) :: t
      | [] => [[c]]

/-- One pass of `seg.replace(~1 → /)` (global, left-to-right). -/
def replaceTilde1 : List Char → List Char
  | '~' :: '1' :: rest => '/' :: replaceTilde1 rest
  | c :: rest => c :: replaceTilde1 rest
  | [] => []

/-- One pass of `seg.replace(~0 → ~)` (global, left-to-right). -/
def replaceTilde0 : List Char → List Char
  | '~' :: '0' :: rest => '~' :: replaceTilde0 rest
  | c :: rest => c :: replaceTilde0 rest
  | [] => []

/-- `decodePointerSegment` of the normalizer: `~1 → /` then `~0 → ~`. -/
def decodePointerSegment (seg : String) : String :=
  ⟨replaceTilde0 (replaceTilde1 seg.data)⟩

/-- `splitJsonPointer` of the normalizer. -/
def splitJsonPointer (pointer : String) : Option (List String) :=
  if pointer = "" then some []
  else if jsStartsWith pointer "/" = false then none
  else some ((((splitOnChar '/' pointer.data).map (fun l => (⟨l⟩ : String))).drop 1).map
    decodePointerSegment)

/-- `Number(seg)` restricted to the integer-index check of the
normalizer: `some n` when the segment denotes the non-negative integer
`n` (`""` is JavaScript `0`), `none` when `Number(seg)` is not a
non-negative integer.  (JavaScript's `Number` also accepts whitespace,
signed, hex and exponent forms; none of those can denote a non-negative
plain index differently, and the verified inputs use plain digits.) -/
def jsIndex (seg : String) : Option Nat :=
  if seg = "" then some 0
  else if seg.data.all Char.isDigit then some (digitsToNat seg.data)
  else none

/-- The walk-and-delete of `removeJsonPointerPaths` for one pointer's
segment list: follow all but the last segment, then remove the addressed
array element (`splice`) or object property (`delete`); any failure along
the walk (missing key, bad index, primitive parent) leaves the value
unchanged, exactly as the source's `parent = null; break` / `continue`. -/
def removeAt (v : JsValue) (segs : List String) : JsValue :=
  match segs, v with
  | [], _ => v
  | [last], .arr xs =>
    (match jsIndex last with
     | some idx => if idx < xs.length then .arr (xs.eraseIdx idx) else v
     | none => v)
  | [last], .obj ms => .obj (ms.filter (fun m => ¬ m.1 = last))
  | [_], _ => v
  | seg :: rest, .arr xs =>
    (match jsIndex seg with
     | some idx =>
       (match xs[idx]? with
        | some child => .arr (xs.set idx (removeAt child (rest)))
        | none => v)
     | none => v)
  | seg :: rest, .obj ms =>
    (match lookupMember ms seg with
     | some child => .obj (ms.map (fun m => if m.1 = seg then (m.1, removeAt child rest) else m))
     | none => v)
  | _ :: _, _ => v

/-- `removeJsonPointerPaths` of the normalizer: apply each pointer in
order; an unparsable pointer is skipped, and the root pointer collapses
the whole document to `null` immediately. -/
def removeJsonPointerPaths (root : JsValue) (ignorePointers : List String) : JsValue :=
  match ignorePointers with
  | [] => root
  | p :: rest =>
    match splitJsonPointer p with
    | none => removeJsonPointerPaths root rest
    | some [] => .null
    | some segs => removeJsonPointerPaths (removeAt root segs) rest

/-! ### C2: the state key misses snapshot-affecting configuration changes -/

/-- A concrete static-mode configuration whose ignore-JSON paths address
array indices. -/
def c2Base : StateKeyV2Input :=
  { targetUrl := "https://shop.example.com/items"
    selector := none
    renderingMode := "static"
    waitUntil := "load"
    waitForSelector := none
    waitForSelectorTimeoutSecs := 15
    fetchHeaders := []
    targetMethod := none
    targetBody := none
    targetCookies := none
    robotsTxtMode := none
    blockPageRegexes := none
    selectorAggregationMode := none
    whitespaceMode := none
    unicodeNormalization := none
    fields := []
    ignoreJsonPaths := ["/a/0", "/a/1"]
    ignoreSelectors := []
    ignoreAttributes := []
    ignoreRegexes := [] }

/-- The same configuration with the two ignore-JSON paths swapped. -/
def c2Variant : StateKeyV2Input :=
  { c2Base with ignoreJsonPaths := ["/a/1", "/a/0"] }

/-- A JSON document on which the two path orders normalize differently. -/
def c2Doc : JsValue :=
  .obj [("a", .arr [.num 1, .num 2, .num 3])]

/-- **C2 (code bug).** The two configurations differ in a
snapshot-affecting option — applying their ignore-JSON-path lists to the
document `\x7b"a":[1,2,3]\x7d` removes different elements (`[2]` versus
`[3]`), because array removals are applied sequentially and each splice
shifts the later indices — yet `makeStateKeyV2` sorts the path list and
returns the *same* state key for both, so the claimed re-baselining on
any snapshot-affecting change does not hold. -/
theorem stateKey_ignores_jsonPath_order_bug :
    c2Base ≠ c2Variant ∧
    c2Base.ignoreJsonPaths ≠ c2Variant.ignoreJsonPaths ∧
    makeStateKeyV2 c2Base = makeStateKeyV2 c2Variant ∧
    removeJsonPointerPaths c2Doc c2Base.ignoreJsonPaths = .obj [("a", .arr [.num 2])] ∧
    removeJsonPointerPaths c2Doc c2Variant.ignoreJsonPaths = .obj [("a", .arr [.num 3])] ∧
    removeJsonPointerPaths c2Doc c2Base.ignoreJsonPaths ≠
      removeJsonPointerPaths c2Doc c2Variant.ignoreJsonPaths := by
  have hA : removeJsonPointerPaths c2Doc c2Base.ignoreJsonPaths =
      .obj [("a", .arr [.num 2])] := rfl
  have hB : removeJsonPointerPaths c2Doc c2Variant.ignoreJsonPaths =
      .obj [("a", .arr [.num 3])] := rfl
  refine ⟨?_, ?_, ?_, hA, hB, ?_⟩
  · intro h
    have := congrArg StateKeyV2Input.ignoreJsonPaths h
    simp [c2Base, c2Variant] at this
  · intro h
    simp [c2Base, c2Variant] at h
  · have hmat : keyMaterialV2 c2Base = keyMaterialV2 c2Variant := rfl
    rw [makeStateKeyV2, makeStateKeyV2, hmat]
  · rw [hA, hB]
    intro h
    simp at h

/-! ## payload_limit.ts

`limitPayloadBytes` only ever reads and rewrites `changes.text.old/new`
and `payload_truncated`; every other member of the payload is carried
through `{...payload}` untouched.  The model therefore keeps those
members as already-serialized `key ↦ JSON-text` pairs (quantifying over
the rendered text is strictly more general than quantifying over the
values), and serializes the members it does manipulate exactly as
`JSON.stringify` would.  `JSON.stringify` emits members in property
order; the model fixes one order (`event_id` first, `changes` and
`payload_truncated` last), which permutes the real output but never
changes its byte length (same members, same separators). -/

/-- `changes.text`: `old`, `new`, and the remaining members (`delta`,
`patch`, `patch_truncated`) that `{...textChange, old, new}` preserves,
as rendered member list. -/
structure PayloadTextChange where
  old : String
  new : String
  rest : List (String × String)
deriving Repr, DecidableEq

/-- `changes`: the optional `text` member plus the members
(`fields`, `json`) that `buildTruncatedPayload` drops. -/
structure PayloadChanges where
  text : Option PayloadTextChange
  rest : List (String × String)
deriving Repr, DecidableEq

/-- A `ChangePayload` (src/types.ts) as fed to `limitPayloadBytes`:
`event_id`, the remaining fixed members in rendered form, the optional
`changes` block, and whether `payload_truncated: true` is present. -/
structure ChangePayload where
  event_id : String
  base : List (String × String)
  changes : Option PayloadChanges
  payload_truncated : Bool
deriving Repr, DecidableEq

/-- One rendered object member. -/
def renderMember (m : String × String) : String :=
  jsonQuote m.1 ++ ":" ++ m.2

/-- `JSON.stringify` of `changes.text`. -/
def encodeTextChange (t : PayloadTextChange) : String :=
  "\x7b" ++ commaJoin ((("old", jsonQuote t.old) :: ("new", jsonQuote t.new) :: t.rest).map
    renderMember) ++ "\x7d"

/-- `JSON.stringify` of `changes`. -/
def encodeChanges (c : PayloadChanges) : String :=
  "\x7b" ++ commaJoin (((match c.text with
    | some t => [("text", encodeTextChange t)]
    | none => []) ++ c.rest).map renderMember) ++ "\x7d"

/-- `JSON.stringify(payload)`. -/
def encodePayload (p : ChangePayload) : String :=
  "\x7b" ++ commaJoin
    ((("event_id", jsonQuote p.event_id) :: p.base
      ++ (match p.changes with
          | some c => [("changes", encodeChanges c)]
          | none => [])
      ++ (if p.payload_truncated then [("payload_truncated", "true")] else [])).map
      renderMember) ++ "\x7d"

/-- `jsonByteLength` of src/payload_limit.ts:
`Buffer.byteLength(JSON.stringify(value), 'utf8')`. -/
def jsonByteLengthP (p : ChangePayload) : Nat :=
  utf8ByteLength (encodePayload p)

/-- `truncate` of src/redact.ts. -/
def truncate (text : String) (maxChars : Int) : String × Bool :=
  if (text.length : Int) ≤ maxChars then (text, false)
  else if maxChars ≤ 3 then (⟨List.replicate (max 0 maxChars).toNat '.'⟩, true)
  else (strTake text (maxChars - 3).toNat ++ "...", true)

/-- `buildTruncatedPayload` of src/payload_limit.ts: cut the two texts,
set `payload_truncated`, drop the non-`text` members of `changes`. -/
def buildTruncatedPayload (p : ChangePayload) (oldChars newChars : Int) : ChangePayload :=
  match p.changes with
  | none => p
  | some c =>
    match c.text with
    | none => p
    | some t =>
      { p with
        payload_truncated := true
        changes := some
          { text := some
              { t with old := (truncate t.old oldChars).1, new := (truncate t.new newChars).1 }
            rest := [] } }

/-- The slack re-allocation loop at the end of `allocateChars`. -/
def allocSlack (oldLen newLen : Int) (oldChars newChars remaining : Int) : Int × Int :=
  if h : 0 < remaining ∧ (oldChars < oldLen ∨ newChars < newLen) then
    if ho : oldChars < oldLen then
      if remaining - 1 ≤ 0 then (oldChars + 1, newChars)
      else if newChars < newLen then
        allocSlack oldLen newLen (oldChars + 1) (newChars + 1) (remaining - 2)
      else
        allocSlack oldLen newLen (oldChars + 1) newChars (remaining - 1)
    else
      allocSlack oldLen newLen oldChars (newChars + 1) (remaining - 1)
  else (oldChars, newChars)
termination_by remaining.toNat
decreasing_by
  · omega
  · omega
  · omega

/-- `allocateChars` of src/payload_limit.ts. -/
def allocateChars (total oldLen newLen : Int) : Int × Int :=
  if total ≤ 0 then (0, 0)
  else if oldLen ≤ 0 then (0, min newLen total)
  else if newLen ≤ 0 then (min oldLen total, 0)
  else
    let denom := oldLen + newLen
    let oc0 := total * oldLen / denom
    let nc0 := total - oc0
    let p1 := if oldLen < oc0 then (oldLen, min newLen (total - oldLen)) else (oc0, nc0)
    let p2 := if newLen < p1.2 then (min oldLen (total - newLen), newLen) else p1
    allocSlack oldLen newLen p2.1 p2.2 (total - p2.1 - p2.2)

/-- The binary search of `limitPayloadBytes`: find the largest total
character budget whose truncated payload fits. -/
def searchBudget (payload : ChangePayload) (maxBytes oldLen newLen : Int)
    (lo hi : Int) (best : ChangePayload) : ChangePayload :=
  if h : lo ≤ hi then
    let mid := (lo + hi) / 2
    let oc := (allocateChars mid oldLen newLen).1
    let nc := (allocateChars mid oldLen newLen).2
    let candidate := buildTruncatedPayload payload oc nc
    if (jsonByteLengthP candidate : Int) ≤ maxBytes then
      searchBudget payload maxBytes oldLen newLen (mid + 1) hi candidate
    else
      searchBudget payload maxBytes oldLen newLen lo (mid - 1) best
  else best
termination_by (hi + 1 - lo).toNat
decreasing_by
  · omega
  · omega

/-- `limitPayloadBytes` of src/payload_limit.ts. -/
def limitPayloadBytes (payload : ChangePayload) (maxBytes : Int) :
    Except String (ChangePayload × Bool) :=
  if (jsonByteLengthP payload : Int) ≤ maxBytes then .ok (payload, false)
  else
    match payload.changes with
    | none => .error "Payload exceeds max_payload_bytes but has no changes to truncate."
    | some c =>
      match c.text with
      | none => .error "Payload exceeds max_payload_bytes but has no changes to truncate."
      | some t =>
        let oldLen := (t.old.length : Int)
        let newLen := (t.new.length : Int)
        let minimal := buildTruncatedPayload payload 0 0
        if maxBytes < (jsonByteLengthP minimal : Int) then
          .error "max_payload_bytes too small to fit payload skeleton."
        else
          .ok (searchBudget payload maxBytes oldLen newLen 0 (oldLen + newLen) minimal, true)

/-! ### C3: the payload limiter bounds the encoding -/

theorem buildTruncatedPayload_flag (p : ChangePayload) (c : PayloadChanges)
    (t : PayloadTextChange) (hc : p.changes = some c) (ht : c.text = some t)
    (a b : Int) : (buildTruncatedPayload p a b).payload_truncated = true := by
  simp [buildTruncatedPayload, hc, ht]

theorem searchBudget_spec (payload : ChangePayload) (maxBytes oldLen newLen : Int)
    (c : PayloadChanges) (t : PayloadTextChange)
    (hc : payload.changes = some c) (ht : c.text = some t) :
    ∀ (lo hi : Int) (best : ChangePayload),
      (jsonByteLengthP best : Int) ≤ maxBytes → best.payload_truncated = true →
      (jsonByteLengthP (searchBudget payload maxBytes oldLen newLen lo hi best) : Int) ≤ maxBytes ∧
      (searchBudget payload maxBytes oldLen newLen lo hi best).payload_truncated = true := by
  intro lo hi best
  induction lo, hi, best using searchBudget.induct payload maxBytes oldLen newLen with
  | case1 lo hi best h mid oc nc candidate hfits ih =>
    intro hb hf
    rw [searchBudget.eq_def, dif_pos h]
    simp only [hfits, if_true]
    exact ih hfits (buildTruncatedPayload_flag payload c t hc ht _ _)
  | case2 lo hi best h mid oc nc candidate hnofit ih =>
    intro hb hf
    rw [searchBudget.eq_def, dif_pos h]
    simp only [if_neg hnofit]
    exact ih hb hf
  | case3 lo hi best h =>
    intro hb hf
    rw [searchBudget.eq_def, dif_neg h]
    exact ⟨hb, hf⟩

/-- **C3.** For every payload `p` and limit `N`: if the JSON encoding of
`p` is at most `N` bytes, `limitPayloadBytes` returns `p` unchanged with
`truncated = false`; otherwise it fails when `p` has no `changes.text`,
and it fails when even the fully-truncated payload (both texts cut to 0
characters) exceeds `N` bytes; and whenever it returns, the returned
payload's JSON encoding is at most `N` bytes, `payload_truncated` is set
whenever truncation occurred, and an untruncated return is `p` itself. -/
theorem limitPayloadBytes_correct (p : ChangePayload) (maxBytes : Int) :
    ((jsonByteLengthP p : Int) ≤ maxBytes →
      limitPayloadBytes p maxBytes = .ok (p, false)) ∧
    (maxBytes < (jsonByteLengthP p : Int) →
      (p.changes = none ∨ ∃ c, p.changes = some c ∧ c.text = none) →
      ∃ msg, limitPayloadBytes p maxBytes = .error msg) ∧
    (maxBytes < (jsonByteLengthP p : Int) →
      maxBytes < (jsonByteLengthP (buildTruncatedPayload p 0 0) : Int) →
      ∃ msg, limitPayloadBytes p maxBytes = .error msg) ∧
    (∀ q tr, limitPayloadBytes p maxBytes = .ok (q, tr) →
      (jsonByteLengthP q : Int) ≤ maxBytes ∧
      (tr = true → q.payload_truncated = true) ∧ (tr = false → q = p)) := by
  refine ⟨?_, ?_, ?_, ?_⟩
  · intro h
    rw [limitPayloadBytes, if_pos h]
  · intro h hnone
    rw [limitPayloadBytes, if_neg (not_le.mpr h)]
    rcases hnone with hch | ⟨c, hch, hct⟩
    · simp [hch]
    · simp [hch, hct]
  · intro h hmin
    rw [limitPayloadBytes, if_neg (not_le.mpr h)]
    rcases hch : p.changes with _ | c
    · simp [hch]
    · rcases hct : c.text with _ | t
      · simp [hch, hct]
      · simp only [hch, hct]
        simp [hmin]
  · intro q tr h
    rw [limitPayloadBytes] at h
    by_cases h0 : (jsonByteLengthP p : Int) ≤ maxBytes
    · rw [if_pos h0] at h
      simp only [Except.ok.injEq, Prod.mk.injEq] at h
      obtain ⟨rfl, rfl⟩ := h
      exact ⟨h0, by simp, fun _ => rfl⟩
    · rw [if_neg h0] at h
      rcases hch : p.changes with _ | c
      · simp [hch] at h
      · rcases hct : c.text with _ | t
        · simp [hch, hct] at h
        · simp only [hch, hct] at h
          by_cases hmin :
            maxBytes < (jsonByteLengthP (buildTruncatedPayload p 0 0) : Int)
          · simp [hmin] at h
          · simp only [hmin, if_false, Except.ok.injEq, Prod.mk.injEq] at h
            obtain ⟨hq, htr⟩ := h
            have hspec := searchBudget_spec p maxBytes (t.old.length : Int)
              (t.new.length : Int) c t hch hct 0
              ((t.old.length : Int) + (t.new.length : Int))
              (buildTruncatedPayload p 0 0) (not_lt.mp hmin)
              (buildTruncatedPayload_flag p c t hch hct 0 0)
            rw [hq] at hspec
            refine ⟨hspec.1, fun _ => hspec.2, fun hfalse => ?_⟩
            rw [hfalse] at htr
            exact absurd htr (by simp)

/-- A small concrete change payload that fits in 500 bytes. -/
def c3Payload : ChangePayload :=
  { event_id := "ev1"
    base := [("schema_version", "1"), ("event", jsonQuote "CHANGE_DETECTED"),
      ("url", jsonQuote "https://x.example/")]
    changes := some { text := some { old := "aaaa", new := "bbbb", rest := [] }, rest := [] }
    payload_truncated := false }

/-- A payload without a truncatable `changes.text`. -/
def c3Bare : ChangePayload :=
  { event_id := "ev2"
    base := [("event", jsonQuote "NO_CHANGE")]
    changes := none
    payload_truncated := false }

set_option maxRecDepth 4000 in
/-- Witness for C3: a fitting payload is returned unchanged and its
returned encoding fits; an oversized payload without `changes.text`
fails; an oversized payload whose skeleton alone exceeds the limit
fails. -/
theorem limitPayloadBytes_correct_witness :
    (limitPayloadBytes c3Payload 500 = .ok (c3Payload, false)) ∧
    ((jsonByteLengthP c3Payload : Int) ≤ 500 ∧
      (c3Payload.payload_truncated = false → c3Payload = c3Payload)) ∧
    (∃ msg, limitPayloadBytes c3Bare 10 = .error msg) ∧
    (∃ msg, limitPayloadBytes c3Payload 10 = .error msg) := by
  have hfit : (jsonByteLengthP c3Payload : Int) ≤ 500 := by decide
  have hok := (limitPayloadBytes_correct c3Payload 500).1 hfit
  refine ⟨hok, ⟨?_, fun _ => rfl⟩, ?_, ?_⟩
  · exact ((limitPayloadBytes_correct c3Payload 500).2.2.2 c3Payload false hok).1
  · exact (limitPayloadBytes_correct c3Bare 10).2.1 (by decide) (Or.inl rfl)
  · exact (limitPayloadBytes_correct c3Payload 10).2.2.1 (by decide) (by decide)

/-! ## url_safety.ts -/

/-- A parsed IP address (the output of `ipaddr.parse`): four bytes, or
eight 16-bit groups. -/
inductive Ip where
  | v4 (a b c d : Nat)
  | v6 (g1 g2 g3 g4 g5 g6 g7 g8 : Nat)
deriving Repr, DecidableEq

/-- `ipaddr.js` `IPv4.range()`: the special-range table of the library
(unspecified, broadcast, multicast, link-local, loopback, carrier-grade
NAT, the three private blocks, the reserved blocks), else `unicast`. -/
def ipv4Range (a b c d : Nat) : String :=
  if a = 0 then "unspecified"
  else if a = 255 ∧ b = 255 ∧ c = 255 ∧ d = 255 then "broadcast"
  else if 224 ≤ a ∧ a ≤ 239 then "multicast"
  else if a = 169 ∧ b = 254 then "linkLocal"
  else if a = 127 then "loopback"
  else if a = 100 ∧ 64 ≤ b ∧ b ≤ 127 then "carrierGradeNat"
  else if a = 10 ∨ (a = 172 ∧ 16 ≤ b ∧ b ≤ 31) ∨ (a = 192 ∧ b = 168) then "private"
  else if (a = 192 ∧ b = 0 ∧ c = 0) ∨ (a = 192 ∧ b = 0 ∧ c = 2) ∨
      (a = 192 ∧ b = 88 ∧ c = 99) ∨ (a = 198 ∧ (b = 18 ∨ b = 19)) ∨
      (a = 198 ∧ b = 51 ∧ c = 100) ∨ (a = 203 ∧ b = 0 ∧ c = 113) ∨ 240 ≤ a then
    "reserved"
  else "unicast"

/-- `ipaddr.js` `IPv6.range()`: unspecified, link-local, multicast,
loopback, unique-local, IPv4-mapped and the translation/transition and
documentation prefixes, else `unicast`.  Only the unicast/non-unicast
distinction is load-bearing for the verified property. -/
def ipv6Range (g1 g2 g3 g4 g5 g6 g7 g8 : Nat) : String :=
  if g1 = 0 ∧ g2 = 0 ∧ g3 = 0 ∧ g4 = 0 ∧ g5 = 0 ∧ g6 = 0 ∧ g7 = 0 ∧ g8 = 0 then
    "unspecified"
  else if g1 &&& 0xffc0 = 0xfe80 then "linkLocal"
  else if g1 >>> 8 = 0xff then "multicast"
  else if g1 = 0 ∧ g2 = 0 ∧ g3 = 0 ∧ g4 = 0 ∧ g5 = 0 ∧ g6 = 0 ∧ g7 = 0 ∧ g8 = 1 then
    "loopback"
  else if g1 &&& 0xfe00 = 0xfc00 then "uniqueLocal"
  else if g1 = 0 ∧ g2 = 0 ∧ g3 = 0 ∧ g4 = 0 ∧ g5 = 0 ∧ g6 = 0xffff then "ipv4Mapped"
  else if g1 = 0 ∧ g2 = 0 ∧ g3 = 0 ∧ g4 = 0 ∧ g5 = 0xffff ∧ g6 = 0 then "rfc6145"
  else if g1 = 0x64 ∧ g2 = 0xff9b ∧ g3 = 0 ∧ g4 = 0 ∧ g5 = 0 ∧ g6 = 0 then "rfc6052"
  else if g1 = 0x2002 then "6to4"
  else if g1 = 0x2001 ∧ g2 = 0 then "teredo"
  else if g1 = 0x2001 ∧ g2 = 0xdb8 then "reserved"
  else "unicast"

/-- `isPublicIpAddress` of src/url_safety.ts: an IPv4-mapped IPv6
address is evaluated as its embedded IPv4 address; then opt-in loopback,
else the range must be `unicast`. -/
def isPublicIpAddress (ip : Ip) (allowLocalhost : Bool) : Bool :=
  match ip with
  | .v6 g1 g2 g3 g4 g5 g6 g7 g8 =>
    if g1 = 0 ∧ g2 = 0 ∧ g3 = 0 ∧ g4 = 0 ∧ g5 = 0 ∧ g6 = 0xffff then
      let range := ipv4Range (g7 >>> 8) (g7 % 256) (g8 >>> 8) (g8 % 256)
      if allowLocalhost = true ∧ range = "loopback" then true else range = "unicast"
    else
      let range := ipv6Range g1 g2 g3 g4 g5 g6 g7 g8
      if allowLocalhost = true ∧ range = "loopback" then true else range = "unicast"
  | .v4 a b c d =>
    let range := ipv4Range a b c d
    if allowLocalhost = true ∧ range = "loopback" then true else range = "unicast"

/-- The fields of a WHATWG `URL` that `assertSafeHttpUrl` reads, plus the
result of `net.isIP(url.hostname)` / `ipaddr.parse` as `ipLiteral`
(`some` exactly when the hostname is an IP literal). -/
structure ParsedUrl where
  protocol : String
  username : String
  password : String
  hostname : String
  ipLiteral : Option Ip
deriving Repr, DecidableEq

/-- `assertSafeHostname` of src/url_safety.ts over a DNS oracle
(`none` = resolution error).  The per-process verdict cache only
memoizes the same computation, so a single call is modelled cache-free;
the per-record loop throws at the first non-public record, modelled by
the `all` check. -/
def assertSafeHostname (hostname : String) (allowLocalhost : Bool)
    (dns : String → Option (List Ip)) : Except String Unit :=
  let normalized := normalizeHostname hostname
  if normalized = "" then .error "Missing hostname"
  else if allowLocalhost = false ∧
      (normalized = "localhost" ∨ jsEndsWith normalized ".localhost" = true) then
    .error "Blocked hostname"
  else
    match dns normalized with
    | none => .error "lookup failed"
    | some [] => .error "Unable to resolve hostname"
    | some records =>
      if records.all (fun r => isPublicIpAddress r allowLocalhost) then .ok ()
      else .error "Blocked IP range"

/-- `assertSafeHttpUrl` of src/url_safety.ts over the parsed URL
(`none` models a `new URL(rawUrl)` failure). -/
def assertSafeHttpUrl (url : Option ParsedUrl) (allowLocalhost : Bool)
    (dns : String → Option (List Ip)) : Except String Unit :=
  match url with
  | none => .error "Invalid URL"
  | some u =>
    if ¬(u.protocol = "http:" ∨ u.protocol = "https:") then
      .error "Unsupported protocol"
    else if u.username ≠ "" ∨ u.password ≠ "" then
      .error "URL must not include username/password"
    else if u.hostname = "" then .error "Missing hostname"
    else
      match u.ipLiteral with
      | some ip =>
        if isPublicIpAddress ip allowLocalhost then .ok () else .error "Blocked IP range"
      | none => assertSafeHostname u.hostname allowLocalhost dns

/-! ### C4: what the URL safety guard always rejects -/

/-- **C4.** With `allowLocalhost` disabled, `assertSafeHttpUrl` fails for
every URL whose scheme is not http(s), or that carries user-info, or
whose host is empty, or whose host is the hostname `localhost` or any
`*.localhost` name (after trailing-dot/case normalization), or whose
host is an IP literal that is not public unicast; and an IPv4-mapped
IPv6 literal is judged exactly as its embedded IPv4 address. -/
theorem assertSafeHttpUrl_rejects (u : ParsedUrl) (dns : String → Option (List Ip)) :
    ((¬(u.protocol = "http:" ∨ u.protocol = "https:") ∨
      u.username ≠ "" ∨ u.password ≠ "" ∨
      u.hostname = "" ∨
      (u.ipLiteral = none ∧
        (normalizeHostname u.hostname = "localhost" ∨
          jsEndsWith (normalizeHostname u.hostname) ".localhost" = true)) ∨
      (∃ ip, u.ipLiteral = some ip ∧ isPublicIpAddress ip false = false)) →
      ∃ msg, assertSafeHttpUrl (some u) false dns = .error msg) ∧
    (∀ g7 g8 : Nat, isPublicIpAddress (.v6 0 0 0 0 0 0xffff g7 g8) false =
      isPublicIpAddress (.v4 (g7 >>> 8) (g7 % 256) (g8 >>> 8) (g8 % 256)) false) := by
  constructor
  · intro hcond
    rw [assertSafeHttpUrl]
    by_cases hp : u.protocol = "http:" ∨ u.protocol = "https:"
    · rw [if_neg (not_not_intro hp)]
      by_cases hup : u.username ≠ "" ∨ u.password ≠ ""
      · rw [if_pos hup]
        exact ⟨_, rfl⟩
      · rw [if_neg hup]
        by_cases hh : u.hostname = ""
        · rw [if_pos hh]
          exact ⟨_, rfl⟩
        · rw [if_neg hh]
          rcases hip : u.ipLiteral with _ | ip
          · -- hostname path: the remaining condition must be the localhost one
            rcases hcond with hc | hc | hc | hc | ⟨-, hloc⟩ | ⟨ip, hc, -⟩
            · exact absurd hp hc
            · exact absurd (Or.inl hc) hup
            · exact absurd (Or.inr hc) hup
            · exact absurd hc hh
            · rw [assertSafeHostname]
              by_cases hn : normalizeHostname u.hostname = ""
              · rw [if_pos hn]
                exact ⟨_, rfl⟩
              · rw [if_neg hn, if_pos ⟨rfl, hloc⟩]
                exact ⟨_, rfl⟩
            · rw [hip] at hc
              exact absurd hc (by simp)
          · -- IP-literal path: the remaining condition must be the range one
            rcases hcond with hc | hc | hc | hc | ⟨hnone, -⟩ | ⟨ip2, hc, hbad⟩
            · exact absurd hp hc
            · exact absurd (Or.inl hc) hup
            · exact absurd (Or.inr hc) hup
            · exact absurd hc hh
            · rw [hip] at hnone
              exact absurd hnone (by simp)
            · rw [hip] at hc
              have : ip2 = ip := by
                have := hc
                simp at this
                exact this.symm
              rw [this] at hbad
              refine ⟨"Blocked IP range", ?_⟩
              simp [hbad]
    · rw [if_pos hp]
      exact ⟨_, rfl⟩
  · intro g7 g8
    simp [isPublicIpAddress]

/-- Witness for C4: a non-http scheme, a credentialed URL, a
`localhost` host, a loopback IPv4 literal, and an IPv4-mapped loopback
IPv6 literal are all rejected; the mapped literal is judged as its
embedded IPv4 address. -/
theorem assertSafeHttpUrl_rejects_witness :
    (∃ msg, assertSafeHttpUrl
      (some ⟨"ftp:", "", "", "example.com", none⟩) false (fun _ => none) = .error msg) ∧
    (∃ msg, assertSafeHttpUrl
      (some ⟨"https:", "user", "", "example.com", none⟩) false (fun _ => none) = .error msg) ∧
    (∃ msg, assertSafeHttpUrl
      (some ⟨"http:", "", "", "LOCALHOST.", none⟩) false (fun _ => none) = .error msg) ∧
    (∃ msg, assertSafeHttpUrl
      (some ⟨"http:", "", "", "127.0.0.1", some (.v4 127 0 0 1)⟩) false
      (fun _ => none) = .error msg) ∧
    isPublicIpAddress (.v6 0 0 0 0 0 0xffff 0x7f00 0x0001) false =
      isPublicIpAddress (.v4 127 0 0 1) false :=
  ⟨(assertSafeHttpUrl_rejects ⟨"ftp:", "", "", "example.com", none⟩ (fun _ => none)).1
      (Or.inl (by decide)),
    (assertSafeHttpUrl_rejects ⟨"https:", "user", "", "example.com", none⟩ (fun _ => none)).1
      (Or.inr (Or.inl (by decide))),
    (assertSafeHttpUrl_rejects ⟨"http:", "", "", "LOCALHOST.", none⟩ (fun _ => none)).1
      (Or.inr (Or.inr (Or.inr (Or.inr (Or.inl (by decide)))))),
    (assertSafeHttpUrl_rejects ⟨"http:", "", "", "127.0.0.1", some (.v4 127 0 0 1)⟩
        (fun _ => none)).1
      (Or.inr (Or.inr (Or.inr (Or.inr (Or.inr ⟨.v4 127 0 0 1, rfl, by decide⟩))))),
    (assertSafeHttpUrl_rejects ⟨"http:", "", "", "x", none⟩ (fun _ => none)).2 0x7f00 0x0001⟩

/-! ## webhook.ts -/

/-- The slice of `SentinelInput` that `sendWebhook` reads.  The per-URL
retry internals (`withRetries` around `sendJson`) are abstracted into the
terminal per-URL outcome `deliverOk`, and the per-URL safety/domain
checks into the `urlOk` oracle; both claims below are about what is sent
and what the loop does with the outcomes. -/
structure WebhookConfig where
  webhook_url : String
  webhook_urls : List String
  webhook_delivery_mode : String
  webhook_method : String
  webhook_content_type : String
  webhook_headers : List (String × String)
  webhook_secret : Option String
deriving Repr, DecidableEq

/-- `hasHeader` of src/webhook.ts. -/
def hasHeader (headers : List (String × String)) (name : String) : Bool :=
  headers.any (fun m => jsToLowerCase m.1 == jsToLowerCase name)

/-- JavaScript record assignment `headers[k] = v`: overwrite in place or
append. -/
def recordSet (r : List (String × String)) (k v : String) : List (String × String) :=
  if r.any (fun m => m.1 == k) then r.map (fun m => if m.1 = k then (k, v) else m)
  else r ++ [(k, v)]

/-- Value stored under a key (first match), JavaScript `headers[k]`. -/
def lookupHeader (r : List (String × String)) (k : String) : Option String :=
  (r.find? (fun m => m.1 == k)).map (fun m => m.2)

/-- The four unconditional header assignments of `sendWebhook` before
the secret check: user headers, defaulted `content-type`, event id
twice, timestamp. -/
def baseHeaders (cfg : WebhookConfig) (eventId timestamp : String) :
    List (String × String) :=
  recordSet
    (recordSet
      (recordSet
        (if hasHeader cfg.webhook_headers "content-type" = false then
          recordSet cfg.webhook_headers "content-type" cfg.webhook_content_type
        else cfg.webhook_headers)
        "x-sentinel-event-id" eventId)
      "idempotency-key" eventId)
    "x-sentinel-timestamp" timestamp

/-- The header record that `sendWebhook` builds before its URL loop:
the base headers plus the HMAC signature when a secret is configured
(`timestamp = Math.floor(Date.now() / 1000).toString()`). -/
def sendWebhookHeaders (cfg : WebhookConfig) (eventId json : String) (nowMs : Nat) :
    List (String × String) :=
  match cfg.webhook_secret with
  | some secret =>
    recordSet (baseHeaders cfg eventId (toString (nowMs / 1000))) "x-sentinel-signature"
      ("sha256=" ++ hmacSha256Hex secret (toString (nowMs / 1000) ++ "." ++ json))
  | none => baseHeaders cfg eventId (toString (nowMs / 1000))

/-- One HTTP request issued by the URL loop (every retry of a URL posts
the same method, body and headers). -/
structure WebhookRequest where
  url : String
  method : String
  body : String
  headers : List (String × String)
deriving Repr, DecidableEq

/-- The observable outcome of `sendWebhook`: the requests issued in
order, the successfully delivered URLs, the failed URLs, and whether a
`WebhookDeliveryError` was finally thrown. -/
structure SendOutcome where
  requests : List WebhookRequest
  deliveries : List String
  failures : List String
  threw : Bool
deriving Repr, DecidableEq

/-- `urls.length > 0 ? input.webhook_urls : [input.webhook_url]`. -/
def effectiveUrls (cfg : WebhookConfig) : List String :=
  if cfg.webhook_urls.length > 0 then cfg.webhook_urls else [cfg.webhook_url]

/-- `sendWebhook` of src/webhook.ts.  `urlOk` is the verdict of
`assertSafeHttpUrl` + `assertUrlAllowedByDomainPolicy` per URL;
`deliverOk i` is the terminal outcome of the retried delivery to the
`i`-th URL.  The source's sequential loop partitions the URLs, in order,
into `deliveries` and `failures` (a failure is caught, recorded, and the
loop continues), then throws iff the delivery mode's success condition
fails. -/
def sendWebhook (cfg : WebhookConfig) (payload : ChangePayload) (nowMs : Nat)
    (urlOk : String → Bool) (deliverOk : Nat → Bool) : SendOutcome :=
  let urls := effectiveUrls cfg
  if urls.length = 0 then ⟨[], [], [], true⟩
  else if ¬ urls.all urlOk then ⟨[], [], [], true⟩
  else
    let json := encodePayload payload
    let headers := sendWebhookHeaders cfg payload.event_id json nowMs
    let requests := urls.map (fun u => ⟨u, cfg.webhook_method, json, headers⟩)
    let deliveries := (urls.enum.filter (fun p => deliverOk p.1)).map Prod.snd
    let failures := (urls.enum.filter (fun p => ¬ deliverOk p.1)).map Prod.snd
    let success := deliveries.length > 0
    let ok := if cfg.webhook_delivery_mode = "any" then success else failures.length = 0
    ⟨requests, deliveries, failures, ¬ ok⟩

theorem lookupHeader_recordSet_self (r : List (String × String)) (k v : String) :
    lookupHeader (recordSet r k v) k = some v := by
  rw [recordSet]
  by_cases h : r.any (fun m => m.1 == k)
  · rw [if_pos h]
    rw [List.any_eq_true] at h
    obtain ⟨m, hm, hk⟩ := h
    induction r with
    | nil => exact absurd hm (List.not_mem_nil m)
    | cons x xs ih =>
      rw [List.map_cons, lookupHeader, List.find?]
      by_cases hx : x.1 = k
      · simp [hx]
      · simp only [if_neg hx]
        have hxk : (x.1 == k) = false := by simpa using hx
        simp only [hxk]
        rcases List.mem_cons.mp hm with rfl | hm2
        · exact absurd (by simpa using hk) hx
        · exact ih hm2
  · rw [if_neg h]
    rw [lookupHeader, List.find?_append]
    have hnone : r.find? (fun m => m.1 == k) = none := by
      rw [List.find?_eq_none]
      intro m hm
      intro hk
      exact h (List.any_eq_true.mpr ⟨m, hm, hk⟩)
    simp [hnone]

theorem lookupHeader_mapOverwrite (r : List (String × String)) (k v k2 : String)
    (hne : k2 ≠ k) :
    lookupHeader (r.map (fun m => if m.1 = k then (k, v) else m)) k2 = lookupHeader r k2 := by
  induction r with
  | nil => rfl
  | cons x xs ih =>
    rw [List.map_cons, lookupHeader, lookupHeader, List.find?, List.find?]
    by_cases hx : x.1 = k
    · have hxk2 : (x.1 == k2) = false := by
        simp [hx]
        exact fun hc => hne hc.symm
      have hkk2 : (k == k2) = false := by
        simp
        exact fun hc => hne hc.symm
      simp only [if_pos hx, hkk2, hxk2]
      exact ih
    · simp only [if_neg hx]
      rcases hx2 : (x.1 == k2) with _ | _
      · exact ih
      · rfl

theorem lookupHeader_recordSet_other (r : List (String × String)) (k v k2 : String)
    (hne : k2 ≠ k) : lookupHeader (recordSet r k v) k2 = lookupHeader r k2 := by
  rw [recordSet]
  by_cases h : r.any (fun m => m.1 == k)
  · rw [if_pos h]
    exact lookupHeader_mapOverwrite r k v k2 hne
  · rw [if_neg h]
    rw [lookupHeader, lookupHeader, List.find?_append]
    rcases hf : r.find? (fun m => m.1 == k2) with _ | m
    · rw [hf]
      simp only [Option.none_or]
      have hkk2 : ¬ (k = k2) := fun hc => hne hc.symm
      simp [hkk2]
    · rw [hf]
      simp

theorem baseHeaders_lookups (cfg : WebhookConfig) (eventId timestamp : String) :
    lookupHeader (baseHeaders cfg eventId timestamp) "x-sentinel-timestamp" = some timestamp ∧
    lookupHeader (baseHeaders cfg eventId timestamp) "idempotency-key" = some eventId ∧
    lookupHeader (baseHeaders cfg eventId timestamp) "x-sentinel-event-id" = some eventId := by
  rw [baseHeaders]
  refine ⟨lookupHeader_recordSet_self _ _ _, ?_, ?_⟩
  · rw [lookupHeader_recordSet_other _ _ _ _ (by decide)]
    exact lookupHeader_recordSet_self _ _ _
  · rw [lookupHeader_recordSet_other _ _ _ _ (by decide),
      lookupHeader_recordSet_other _ _ _ _ (by decide)]
    exact lookupHeader_recordSet_self _ _ _

theorem sendWebhookHeaders_idempotencyKey (cfg : WebhookConfig)
    (eventId json : String) (nowMs : Nat) :
    lookupHeader (sendWebhookHeaders cfg eventId json nowMs) "idempotency-key" =
      some eventId := by
  rw [sendWebhookHeaders]
  rcases cfg.webhook_secret with _ | secret
  · exact (baseHeaders_lookups cfg eventId _).2.1
  · rw [lookupHeader_recordSet_other _ _ _ _ (by decide)]
    exact (baseHeaders_lookups cfg eventId _).2.1

/-! ### C5: body, identity and signature headers of every delivery -/

/-- **C5.** With a webhook secret configured, every request issued by
`sendWebhook` posts the single JSON serialization of the payload with
the configured method, and carries `x-sentinel-event-id` and
`Idempotency-Key` both equal to the payload's event id,
`x-sentinel-timestamp` equal to `floor(now / 1000)`, and
`x-sentinel-signature` equal to `"sha256=" ++ hex(HMAC-SHA256(secret,
timestamp ++ "." ++ body))`. -/
theorem sendWebhook_signed_headers (cfg : WebhookConfig) (payload : ChangePayload)
    (nowMs : Nat) (urlOk : String → Bool) (deliverOk : Nat → Bool) (secret : String)
    (hsecret : cfg.webhook_secret = some secret) :
    ∀ req ∈ (sendWebhook cfg payload nowMs urlOk deliverOk).requests,
      req.body = encodePayload payload ∧
      req.method = cfg.webhook_method ∧
      lookupHeader req.headers "x-sentinel-event-id" = some payload.event_id ∧
      lookupHeader req.headers "idempotency-key" = some payload.event_id ∧
      lookupHeader req.headers "x-sentinel-timestamp" = some (toString (nowMs / 1000)) ∧
      lookupHeader req.headers "x-sentinel-signature" =
        some ("sha256=" ++ hmacSha256Hex secret
          (toString (nowMs / 1000) ++ "." ++ encodePayload payload)) := by
  intro req hreq
  rw [sendWebhook] at hreq
  by_cases h0 : (effectiveUrls cfg).length = 0
  · rw [if_pos h0] at hreq
    exact absurd hreq (List.not_mem_nil req)
  · rw [if_neg h0] at hreq
    by_cases h1 : (effectiveUrls cfg).all urlOk
    · rw [if_neg (by simpa using h1)] at hreq
      simp only [List.mem_map] at hreq
      obtain ⟨u, -, rfl⟩ := hreq
      refine ⟨rfl, rfl, ?_, ?_, ?_, ?_⟩
      · rw [sendWebhookHeaders, hsecret,
          lookupHeader_recordSet_other _ _ _ _ (by decide)]
        exact (baseHeaders_lookups cfg payload.event_id _).2.2
      · exact sendWebhookHeaders_idempotencyKey cfg payload.event_id _ nowMs
      · rw [sendWebhookHeaders, hsecret,
          lookupHeader_recordSet_other _ _ _ _ (by decide)]
        exact (baseHeaders_lookups cfg payload.event_id _).1
      · rw [sendWebhookHeaders, hsecret]
        exact lookupHeader_recordSet_self _ _ _
    · rw [if_pos (by simpa using h1)] at hreq
      exact absurd hreq (List.not_mem_nil req)

/-- A concrete one-URL webhook configuration with a secret. -/
def c5Cfg : WebhookConfig :=
  { webhook_url := "https://hook.example/a"
    webhook_urls := []
    webhook_delivery_mode := "all"
    webhook_method := "POST"
    webhook_content_type := "application/json; charset=utf-8"
    webhook_headers := []
    webhook_secret := some "secret" }

/-- The single request `sendWebhook` issues for `c5Cfg` and `c3Payload`
at clock `1700000000123`. -/
def c5Req : WebhookRequest :=
  ⟨"https://hook.example/a", c5Cfg.webhook_method, encodePayload c3Payload,
    sendWebhookHeaders c5Cfg c3Payload.event_id (encodePayload c3Payload) 1700000000123⟩

/-- Witness for C5 at a concrete configuration, payload and clock: the
secret is set, the issued request is in the run's request list, and it
carries the claimed body, method, identity headers and signature. -/
theorem sendWebhook_signed_headers_witness :
    c5Cfg.webhook_secret = some "secret" ∧
    c5Req ∈ (sendWebhook c5Cfg c3Payload 1700000000123 (fun _ => true)
        (fun _ => true)).requests ∧
    (c5Req.body = encodePayload c3Payload ∧
      c5Req.method = c5Cfg.webhook_method ∧
      lookupHeader c5Req.headers "x-sentinel-event-id" = some c3Payload.event_id ∧
      lookupHeader c5Req.headers "idempotency-key" = some c3Payload.event_id ∧
      lookupHeader c5Req.headers "x-sentinel-timestamp" =
        some (toString (1700000000123 / 1000 : Nat)) ∧
      lookupHeader c5Req.headers "x-sentinel-signature" =
        some ("sha256=" ++ hmacSha256Hex "secret"
          (toString (1700000000123 / 1000 : Nat) ++ "." ++ encodePayload c3Payload))) := by
  have hm : c5Req ∈ (sendWebhook c5Cfg c3Payload 1700000000123 (fun _ => true)
      (fun _ => true)).requests := by
    rw [sendWebhook]
    simp only [effectiveUrls, c5Cfg, c5Req]
    simp
  exact ⟨rfl, hm, sendWebhook_signed_headers c5Cfg c3Payload 1700000000123
    (fun _ => true) (fun _ => true) "secret" rfl c5Req hm⟩

/-! ### C10: all-mode partial failure keeps deliveries and retries idempotently -/

/-- **C10.** In `all` delivery mode, when at least one URL delivers and
at least one fails, `sendWebhook` ends by throwing a
`WebhookDeliveryError`, but only after attempting every URL in order:
the successful deliveries stand (nothing is undone — the delivered URL
is in the `deliveries` list), and any later invocation for the same
payload sends the same `Idempotency-Key` header (the payload's event
id) to every URL, including the already-successful ones. -/
theorem map_requestUrl_mk (l : List String) (m b : String)
    (hs : List (String × String)) :
    (l.map (fun u => (⟨u, m, b, hs⟩ : WebhookRequest))).map WebhookRequest.url = l := by
  induction l with
  | nil => rfl
  | cons x xs ih => simp [ih]

theorem sendWebhook_all_partial_failure (cfg : WebhookConfig) (payload : ChangePayload)
    (nowMs : Nat) (urlOk : String → Bool) (deliverOk : Nat → Bool) (i j : Nat)
    (hmode : cfg.webhook_delivery_mode = "all")
    (hsafe : (effectiveUrls cfg).all urlOk = true)
    (hi : i < (effectiveUrls cfg).length) (hj : j < (effectiveUrls cfg).length)
    (hiok : deliverOk i = true) (hjfail : deliverOk j = false) :
    (sendWebhook cfg payload nowMs urlOk deliverOk).threw = true ∧
    (sendWebhook cfg payload nowMs urlOk deliverOk).requests.map WebhookRequest.url =
      effectiveUrls cfg ∧
    (effectiveUrls cfg)[i] ∈ (sendWebhook cfg payload nowMs urlOk deliverOk).deliveries ∧
    (effectiveUrls cfg)[j] ∈ (sendWebhook cfg payload nowMs urlOk deliverOk).failures ∧
    (∀ (nowMs2 : Nat) (deliverOk2 : Nat → Bool),
      ∀ req ∈ (sendWebhook cfg payload nowMs2 urlOk deliverOk2).requests,
        lookupHeader req.headers "idempotency-key" = some payload.event_id) := by
  have hlen : ¬ (effectiveUrls cfg).length = 0 := by omega
  have hmem_i : (i, (effectiveUrls cfg)[i]) ∈ (effectiveUrls cfg).enum := by
    rw [List.mem_enum_iff_getElem?]
    exact List.getElem?_eq_getElem hi
  have hmem_j : (j, (effectiveUrls cfg)[j]) ∈ (effectiveUrls cfg).enum := by
    rw [List.mem_enum_iff_getElem?]
    exact List.getElem?_eq_getElem hj
  refine ⟨?_, ?_, ?_, ?_, ?_⟩
  · rw [sendWebhook, if_neg hlen, if_neg (by simpa using hsafe)]
    simp only [hmode]
    have hfmem : (effectiveUrls cfg)[j] ∈
        (((effectiveUrls cfg).enum.filter (fun p => ¬ deliverOk p.1)).map Prod.snd) := by
      exact List.mem_map.mpr ⟨(j, (effectiveUrls cfg)[j]),
        List.mem_filter.mpr ⟨hmem_j, by simp [hjfail]⟩, rfl⟩
    have : (((effectiveUrls cfg).enum.filter (fun p => ¬ deliverOk p.1)).map Prod.snd).length ≠ 0 := by
      intro hc
      rw [List.length_eq_zero] at hc
      rw [hc] at hfmem
      exact List.not_mem_nil _ hfmem
    simp only [List.length_map] at this ⊢
    simp [this]
    exact ⟨j, ⟨_, hmem_j⟩, hjfail⟩
  · rw [sendWebhook, if_neg hlen, if_neg (by simpa using hsafe)]
    exact map_requestUrl_mk _ _ _ _
  · rw [sendWebhook, if_neg hlen, if_neg (by simpa using hsafe)]
    simp only
    exact List.mem_map.mpr ⟨(i, (effectiveUrls cfg)[i]),
      List.mem_filter.mpr ⟨hmem_i, by simp [hiok]⟩, rfl⟩
  · rw [sendWebhook, if_neg hlen, if_neg (by simpa using hsafe)]
    simp only
    exact List.mem_map.mpr ⟨(j, (effectiveUrls cfg)[j]),
      List.mem_filter.mpr ⟨hmem_j, by simp [hjfail]⟩, rfl⟩
  · intro nowMs2 deliverOk2 req hreq
    rw [sendWebhook, if_neg hlen, if_neg (by simpa using hsafe)] at hreq
    simp only [List.mem_map] at hreq
    obtain ⟨u, -, rfl⟩ := hreq
    exact sendWebhookHeaders_idempotencyKey cfg payload.event_id _ nowMs2

/-- A two-URL all-mode configuration for the C10 witness. -/
def c10Cfg : WebhookConfig :=
  { webhook_url := "https://hook.example/a"
    webhook_urls := ["https://hook.example/a", "https://hook.example/b"]
    webhook_delivery_mode := "all"
    webhook_method := "POST"
    webhook_content_type := "application/json; charset=utf-8"
    webhook_headers := []
    webhook_secret := none }

/-- Witness for C10: first URL delivers, second fails; the call throws,
both URLs were attempted in order, the first delivery stands, and a
retry re-sends the same idempotency key. -/
theorem sendWebhook_all_partial_failure_witness :
    (sendWebhook c10Cfg c3Payload 1700000000123 (fun _ => true) (fun n => n = 0)).threw = true ∧
    (sendWebhook c10Cfg c3Payload 1700000000123 (fun _ => true)
        (fun n => n = 0)).requests.map WebhookRequest.url = effectiveUrls c10Cfg ∧
    (effectiveUrls c10Cfg)[0] ∈
      (sendWebhook c10Cfg c3Payload 1700000000123 (fun _ => true) (fun n => n = 0)).deliveries ∧
    (effectiveUrls c10Cfg)[1] ∈
      (sendWebhook c10Cfg c3Payload 1700000000123 (fun _ => true) (fun n => n = 0)).failures ∧
    (∀ (nowMs2 : Nat) (deliverOk2 : Nat → Bool),
      ∀ req ∈ (sendWebhook c10Cfg c3Payload nowMs2 (fun _ => true) deliverOk2).requests,
        lookupHeader req.headers "idempotency-key" = some c3Payload.event_id) :=
  sendWebhook_all_partial_failure c10Cfg c3Payload 1700000000123 (fun _ => true)
    (fun n => n = 0) 0 1 rfl (by decide) (by decide) (by decide) (by decide) (by decide)

/-! ## main.ts — the per-target pipeline (processTarget) -/

/-- `approxChangeRatio`'s common-prefix loop (src/diff.ts). -/
def commonPrefixLen : List Char → List Char → Nat
  | a :: as, b :: bs => if a = b then 1 + commonPrefixLen as bs else 0
  | _, _ => 0

/-- `approxChangeRatio`'s common-suffix loop: count matching characters
from the end, never crossing the common prefix on either side. -/
def suffixLoop (old new : List Char) (oldLen newLen pfx s : Nat) : Nat :=
  if h : s < oldLen - pfx ∧ s < newLen - pfx ∧
      old.getD (oldLen - 1 - s) ' ' = new.getD (newLen - 1 - s) ' ' then
    suffixLoop old new oldLen newLen pfx (s + 1)
  else s
termination_by oldLen - pfx - s
decreasing_by omega

/-- `approxChangeRatio` of src/diff.ts. -/
def approxChangeRatio (oldText newText : String) : ℚ :=
  if oldText = newText then 0
  else
    let oldLen := oldText.length
    let newLen := newText.length
    let denom := oldLen + newLen
    if denom = 0 then 0
    else
      let pfx := commonPrefixLen oldText.data newText.data
      let sfx := suffixLoop oldText.data newText.data oldLen newLen pfx 0
      let changedOld := oldLen - pfx - sfx
      let changedNew := newLen - pfx - sfx
      ((changedOld + changedNew : ℕ) : ℚ) / (denom : ℚ)

/-- The outcome of `buildSnapshot` as seen by `processTarget`'s
catch-block: a snapshot, an `EmptySnapshotError` with `ignored`
true/false, or any other fetch/extraction error. -/
inductive FetchResult where
  | success (current : Snapshot)
  | emptyIgnored
  | emptyError
  | fetchFailed
deriving Repr, DecidableEq

/-- The configuration fields of `SentinelInput` that steer
`processTarget`'s baseline/delivery control flow. -/
structure PipelineConfig where
  reset_baseline : Bool
  baseline_mode : String
  min_change_ratio : ℚ
  notify_on_no_change : Bool
  notify_on_fetch_failure : Bool
  webhook_circuit_breaker_enabled : Bool

/-- The outcome of every external effect of one `processTarget` run:
URL safety/domain verdict on the target URL, the stored baseline found
under the v2 (or legacy v1) key, the fetch result, the circuit-breaker
state read from meta, the fetch-failure debounce verdict, whether each
`limitPayloadBytes` call succeeds, and the terminal outcomes of the
notification and main webhook deliveries.  Key-value store writes are
modelled as always succeeding. -/
structure PipelineEnv where
  safetyOk : Bool
  stored : Option Snapshot
  fetch : FetchResult
  circuitOpen : Bool
  debounced : Bool
  limitOk : Bool
  notifyOk : Bool
  deliverOk : Bool

/-- The `finish(...)` outcomes of `processTarget` (src/main.ts). -/
inductive Outcome where
  | BASELINE_STORED
  | NO_CHANGE
  | CHANGE_DETECTED
  | CHANGE_SUPPRESSED
  | FETCH_FAILED
  | EMPTY_SNAPSHOT_IGNORED
  | EMPTY_SNAPSHOT_ERROR
  | WEBHOOK_FAILED
  | WEBHOOK_SKIPPED_CIRCUIT_OPEN
  | TARGET_FAILED
deriving Repr, DecidableEq

/-- `processTarget` of src/main.ts, reduced to its terminal outcome and
whether the baseline snapshot under the target's state key was
(over)written during the run.  The branch structure follows the source:

* an unsafe target URL throws before anything else (`TARGET_FAILED`);
* `reset_baseline` discards the loaded baseline;
* empty-ignored, empty-error and fetch-failed returns never write the
  baseline; the fetch-failure notification may call `limitPayloadBytes`
  outside any try/catch, so its failure aborts the target;
* with no previous baseline the snapshot is stored FIRST, then the
  `BASELINE_STORED` payload is built (`limitPayloadBytes` uncaught) and
  optionally delivered: circuit-open skips delivery, a failed delivery
  finishes as `WEBHOOK_FAILED` — with the baseline already written;
* with a previous baseline: no change stores the refreshed snapshot
  after the optional heartbeat block; a below-ratio change stores the
  snapshot (`CHANGE_SUPPRESSED`); otherwise the change payload is built
  (`limitPayloadBytes` uncaught), circuit-open skips without writing,
  and the baseline is written exactly after a successful delivery. -/
def processTarget (cfg : PipelineConfig) (env : PipelineEnv) : Outcome × Bool :=
  if env.safetyOk = false then (.TARGET_FAILED, false)
  else
    let previous := if cfg.reset_baseline then none else env.stored
    match env.fetch with
    | .emptyIgnored => (.EMPTY_SNAPSHOT_IGNORED, false)
    | .emptyError =>
      if cfg.notify_on_fetch_failure = true ∧ env.debounced = false ∧
          ¬ (cfg.webhook_circuit_breaker_enabled = true ∧ env.circuitOpen = true) ∧
          env.limitOk = false then
        (.TARGET_FAILED, false)
      else (.EMPTY_SNAPSHOT_ERROR, false)
    | .fetchFailed =>
      if cfg.notify_on_fetch_failure = true ∧ env.debounced = false ∧
          ¬ (cfg.webhook_circuit_breaker_enabled = true ∧ env.circuitOpen = true) ∧
          env.limitOk = false then
        (.TARGET_FAILED, false)
      else (.FETCH_FAILED, false)
    | .success current =>
      match previous with
      | none =>
        if env.limitOk = false then (.TARGET_FAILED, true)
        else if cfg.baseline_mode = "notify" then
          if cfg.webhook_circuit_breaker_enabled = true ∧ env.circuitOpen = true then
            (.BASELINE_STORED, true)
          else if env.notifyOk then (.BASELINE_STORED, true)
          else (.WEBHOOK_FAILED, true)
        else (.BASELINE_STORED, true)
      | some prev =>
        match computeTextChange prev current with
        | none =>
          if cfg.notify_on_no_change = true ∧
              ¬ (cfg.webhook_circuit_breaker_enabled = true ∧ env.circuitOpen = true) ∧
              env.limitOk = false then
            (.TARGET_FAILED, false)
          else (.NO_CHANGE, true)
        | some change =>
          if cfg.min_change_ratio > 0 ∧
              approxChangeRatio change.old change.new < cfg.min_change_ratio then
            (.CHANGE_SUPPRESSED, true)
          else if env.limitOk = false then (.TARGET_FAILED, false)
          else if cfg.webhook_circuit_breaker_enabled = true ∧ env.circuitOpen = true then
            (.WEBHOOK_SKIPPED_CIRCUIT_OPEN, false)
          else if env.deliverOk then (.CHANGE_DETECTED, true)
          else (.WEBHOOK_FAILED, false)

/-! ### C1: baseline advancement iff no-change / suppressed / delivered change -/

/-- **C1.** For every target with an existing previous baseline and
`reset_baseline` off, one `processTarget` run overwrites the stored
baseline iff the outcome is `NO_CHANGE`, `CHANGE_SUPPRESSED`, or
`CHANGE_DETECTED` (which entails a successful webhook delivery); in
particular `FETCH_FAILED`, `EMPTY_SNAPSHOT_IGNORED`,
`EMPTY_SNAPSHOT_ERROR`, `WEBHOOK_SKIPPED_CIRCUIT_OPEN` and
`WEBHOOK_FAILED` leave the stored baseline untouched. -/
theorem processTarget_baseline_advancement (cfg : PipelineConfig) (env : PipelineEnv)
    (prev : Snapshot) (hstored : env.stored = some prev)
    (hreset : cfg.reset_baseline = false) :
    ((processTarget cfg env).2 = true ↔
      ((processTarget cfg env).1 = .NO_CHANGE ∨
        (processTarget cfg env).1 = .CHANGE_SUPPRESSED ∨
        ((processTarget cfg env).1 = .CHANGE_DETECTED ∧ env.deliverOk = true))) ∧
    (∀ o : Outcome,
      o ∈ ([.FETCH_FAILED, .EMPTY_SNAPSHOT_IGNORED, .EMPTY_SNAPSHOT_ERROR,
        .WEBHOOK_SKIPPED_CIRCUIT_OPEN, .WEBHOOK_FAILED] : List Outcome) →
      (processTarget cfg env).1 = o → (processTarget cfg env).2 = false) := by
  rw [processTarget]
  by_cases hs : env.safetyOk = false
  · rw [if_pos hs]
    constructor
    · simp
    · intro o ho hc
      rfl
  · rw [if_neg hs]
    simp only [hreset, if_false, Bool.false_eq_true, hstored]
    rcases hf : env.fetch with current | _ | _ | _
    · -- success
      simp only
      rcases hch : computeTextChange prev current with _ | change
      · by_cases hn : cfg.notify_on_no_change = true ∧
            ¬ (cfg.webhook_circuit_breaker_enabled = true ∧ env.circuitOpen = true) ∧
            env.limitOk = false
        · rw [if_pos hn]
          constructor
          · simp
          · intro o ho hc
            rfl
        · rw [if_neg hn]
          constructor
          · simp
          · intro o ho hc
            rw [← hc] at ho
            simp at ho
      · simp only
        by_cases hsup : cfg.min_change_ratio > 0 ∧
            approxChangeRatio change.old change.new < cfg.min_change_ratio
        · rw [if_pos hsup]
          constructor
          · simp
          · intro o ho hc
            rw [← hc] at ho
            simp at ho
        · rw [if_neg hsup]
          by_cases hl : env.limitOk = false
          · rw [if_pos hl]
            constructor
            · simp
            · intro o ho hc
              rfl
          · rw [if_neg hl]
            by_cases hco : cfg.webhook_circuit_breaker_enabled = true ∧ env.circuitOpen = true
            · rw [if_pos hco]
              constructor
              · simp
              · intro o ho hc
                rfl
            · rw [if_neg hco]
              rcases hd : env.deliverOk with _ | _
              · simp only [Bool.false_eq_true, if_false]
                constructor
                · simp [hd]
                · intro o ho hc
                  trivial
              · simp only [if_true]
                constructor
                · simp [hd]
                · intro o ho hc
                  rw [← hc] at ho
                  simp at ho
    · -- emptyIgnored
      constructor
      · simp
      · intro o ho hc
        rfl
    · -- emptyError
      by_cases hn : cfg.notify_on_fetch_failure = true ∧ env.debounced = false ∧
          ¬ (cfg.webhook_circuit_breaker_enabled = true ∧ env.circuitOpen = true) ∧
          env.limitOk = false
      · rw [if_pos hn]
        constructor
        · simp
        · intro o ho hc
          rfl
      · rw [if_neg hn]
        constructor
        · simp
        · intro o ho hc
          rfl
    · -- fetchFailed
      simp only
      by_cases hn : cfg.notify_on_fetch_failure = true ∧ env.debounced = false ∧
          ¬ (cfg.webhook_circuit_breaker_enabled = true ∧ env.circuitOpen = true) ∧
          env.limitOk = false
      · rw [if_pos hn]
        constructor
        · simp
        · intro o ho hc
          rfl
      · rw [if_neg hn]
        constructor
        · simp
        · intro o ho hc
          rfl

/-- Witness for C1 at concrete runs: a delivered change writes the
baseline with outcome `CHANGE_DETECTED`; a failed delivery leaves it
unwritten with outcome `WEBHOOK_FAILED`. -/
theorem processTarget_baseline_advancement_witness :
    ((processTarget
        ⟨false, "store_only", 0, false, false, false⟩
        ⟨true, some ⟨"old", "h1", "t1"⟩, .success ⟨"new", "h2", "t2"⟩,
          false, false, true, true, true⟩).2 = true ↔
      ((processTarget
        ⟨false, "store_only", 0, false, false, false⟩
        ⟨true, some ⟨"old", "h1", "t1"⟩, .success ⟨"new", "h2", "t2"⟩,
          false, false, true, true, true⟩).1 = .NO_CHANGE ∨
        (processTarget
        ⟨false, "store_only", 0, false, false, false⟩
        ⟨true, some ⟨"old", "h1", "t1"⟩, .success ⟨"new", "h2", "t2"⟩,
          false, false, true, true, true⟩).1 = .CHANGE_SUPPRESSED ∨
        ((processTarget
        ⟨false, "store_only", 0, false, false, false⟩
        ⟨true, some ⟨"old", "h1", "t1"⟩, .success ⟨"new", "h2", "t2"⟩,
          false, false, true, true, true⟩).1 = .CHANGE_DETECTED ∧ true = true))) ∧
    (∀ o : Outcome,
      o ∈ ([.FETCH_FAILED, .EMPTY_SNAPSHOT_IGNORED, .EMPTY_SNAPSHOT_ERROR,
        .WEBHOOK_SKIPPED_CIRCUIT_OPEN, .WEBHOOK_FAILED] : List Outcome) →
      (processTarget
        ⟨false, "store_only", 0, false, false, false⟩
        ⟨true, some ⟨"old", "h1", "t1"⟩, .success ⟨"new", "h2", "t2"⟩,
          false, false, true, true, false⟩).1 = o →
      (processTarget
        ⟨false, "store_only", 0, false, false, false⟩
        ⟨true, some ⟨"old", "h1", "t1"⟩, .success ⟨"new", "h2", "t2"⟩,
          false, false, true, true, false⟩).2 = false) :=
  ⟨(processTarget_baseline_advancement
      ⟨false, "store_only", 0, false, false, false⟩
      ⟨true, some ⟨"old", "h1", "t1"⟩, .success ⟨"new", "h2", "t2"⟩,
        false, false, true, true, true⟩ ⟨"old", "h1", "t1"⟩ rfl rfl).1,
    (processTarget_baseline_advancement
      ⟨false, "store_only", 0, false, false, false⟩
      ⟨true, some ⟨"old", "h1", "t1"⟩, .success ⟨"new", "h2", "t2"⟩,
        false, false, true, true, false⟩ ⟨"old", "h1", "t1"⟩ rfl rfl).2⟩

end Sentinel
